import Mathlib

/-!
Verification of the temporal adapters in `psycopg3/types/date.py`: the
dumpers (`DateDumper`, `TimeDeltaDumper`, ...) and loaders (`DateLoader`,
`TimeLoader`, `TimeTzLoader`, `TimestampLoader`, `TimestamptzLoader`,
`IntervalLoader`).

Modelling conventions:
* Wire data (Python `bytes`) and decoded text (`str`) are both modelled as
  `List Char`; all inputs in scope are ASCII, where the byte and the decoded
  character coincide.  The byte values 43 and 45 used by the source are the
  characters `+` and `-`.
* `datetime.strptime` is modelled directive by directive after CPython's
  `_strptime.py` regular expressions (`%Y` is exactly four digits, `%d` is
  `3[0-1]|[1-2]\d|0[1-9]|[1-9]| [1-9]`, and so on), followed by the range
  validation that `datetime`/`date`/`time` construction performs.
* Python exceptions become the `PyErr` sum type; a raised exception is
  `Except.error`.
* Python floats (interval seconds) are modelled exactly, as an integer
  numerator over a power-of-ten denominator (`Sec10`); all values reached by
  the theorems below are exactly representable.
* Message texts follow the source with apostrophes elided (for instance
  `doesn't` is rendered `does not`).
-/

/-- Byte strings / decoded text, as lists of characters. -/
abbrev Bytes := List Char

/-- Build `Bytes` from a string literal. -/
def bs (s : String) : Bytes := s.toList

/-- Python `bytes.startswith`. -/
def startsW : Bytes → Bytes → Bool
  | [], _ => true
  | _ :: _, [] => false
  | p :: ps, c :: cs => p == c && startsW ps cs

/-- Python `bytes.endswith`. -/
def endsW (p s : Bytes) : Bool := startsW p.reverse s.reverse

/-- `p` occurs contiguously inside `s` (used to state that an error message
names the offending input). -/
def occursIn (p s : Bytes) : Prop := ∃ l r, s = l ++ p ++ r

/-- Boolean version of `occursIn`. -/
def occursInB (p : Bytes) : Bytes → Bool
  | [] => p == []
  | c :: cs => startsW p (c :: cs) || occursInB p cs

/-- Maximum of a list of naturals (Python `max` over a nonempty list;
`0` on the empty list). -/
def listMax (l : List Nat) : Nat := l.foldl Nat.max 0

/-- Value of an ASCII digit character. -/
def dval (c : Char) : Nat := c.toNat - 48

/-- The digit character for `0 ≤ n ≤ 9`. -/
def dchar : Nat → Char
  | 0 => '0'
  | 1 => '1'
  | 2 => '2'
  | 3 => '3'
  | 4 => '4'
  | 5 => '5'
  | 6 => '6'
  | 7 => '7'
  | 8 => '8'
  | 9 => '9'
  | _ => '*'

/-- Two-digit zero-padded decimal rendering (`%02d`). -/
def pad2 (n : Nat) : Bytes := [dchar (n / 10), dchar (n % 10)]

/-- Four-digit zero-padded decimal rendering (`%04d`). -/
def pad4 (n : Nat) : Bytes :=
  [dchar (n / 1000), dchar (n / 100 % 10), dchar (n / 10 % 10), dchar (n % 10)]

/-- Six-digit zero-padded decimal rendering (`%06d`). -/
def pad6 (n : Nat) : Bytes :=
  [dchar (n / 100000 % 10), dchar (n / 10000 % 10), dchar (n / 1000 % 10),
   dchar (n / 100 % 10), dchar (n / 10 % 10), dchar (n % 10)]

/-- Decimal rendering of a natural number (Python `%d` on a nonnegative value). -/
def natRepr (n : Nat) : Bytes := Nat.toDigits 10 n

/-- Decimal rendering of an integer (Python `%d`). -/
def intRepr (i : Int) : Bytes :=
  if i < 0 then '-' :: natRepr i.natAbs else natRepr i.natAbs

/-- Decimal rendering with an explicit sign (Python `%+d`). -/
def fmtPlus (i : Int) : Bytes :=
  if i < 0 then '-' :: natRepr i.natAbs else '+' :: natRepr i.natAbs

/-- The Python exceptions raised by this module.  `DataError` and
`InterfaceError` are psycopg3 error classes; `ValueError` stands for the
original parse error propagated unchanged; `IndexError` is the unguarded
negative-index failure of `data[-3]` on a short input. -/
inductive PyErr
  | dataError (msg : Bytes)
  | valueError (msg : Bytes)
  | interfaceError (msg : Bytes)
  | notImplementedError (msg : Bytes)
  | indexError
deriving DecidableEq, Repr

deriving instance DecidableEq for Except

/-- `datetime.date`. -/
structure PyDate where
  year : Nat
  month : Nat
  day : Nat
deriving DecidableEq, Repr

/-- `datetime.time` (microsecond precision, no zone). -/
structure PyTime where
  hour : Nat
  minute : Nat
  second : Nat
  micro : Nat
deriving DecidableEq, Repr

/-- `datetime.time` with a fixed UTC offset, in microseconds. -/
structure PyTimeTz where
  time : PyTime
  offUs : Int
deriving DecidableEq, Repr

/-- `datetime.datetime`, optionally zone-aware (offset in microseconds). -/
structure PyDateTime where
  date : PyDate
  time : PyTime
  off : Option Int
deriving DecidableEq, Repr

/-- Python leap-year rule (`calendar.isleap`, used by `datetime`). -/
def isLeap (y : Nat) : Bool := y % 4 == 0 && (y % 100 != 0 || y % 400 == 0)

/-- Days in a month, as validated by `datetime.date`. -/
def daysInMonth (y m : Nat) : Nat :=
  if m == 2 then (if isLeap y then 29 else 28)
  else if m == 4 || m == 6 || m == 9 || m == 11 then 30
  else 31

/-- The range validation performed by `datetime.date(year, month, day)`:
`MINYEAR = 1`, `MAXYEAR = 9999`, month and day within calendar range. -/
def dateOk (y m d : Nat) : Bool :=
  1 ≤ y && y ≤ 9999 && 1 ≤ m && m ≤ 12 && 1 ≤ d && d ≤ daysInMonth y m

/-!
## The `strptime` directive parsers

Each directive is CPython `_strptime.py`'s regular expression, rendered as a
function from input to parsed value and remainder.  The two-digit branch of
each alternation is tried first, exactly as the regex alternation does.
-/

/-- Directive `%d`: `3[0-1]|[1-2]\d|0[1-9]|[1-9]| [1-9]` — the two-digit
alternatives cover exactly the pairs of digits whose value is 1..31. -/
def parse_d : Bytes → Option (Nat × Bytes)
  | c1 :: c2 :: rest =>
    if c1.isDigit ∧ c2.isDigit ∧ 1 ≤ 10 * dval c1 + dval c2 ∧ 10 * dval c1 + dval c2 ≤ 31 then
      some (10 * dval c1 + dval c2, rest)
    else if c1.isDigit ∧ 1 ≤ dval c1 ∧ dval c1 ≤ 9 then some (dval c1, c2 :: rest)
    else if c1 = ' ' ∧ c2.isDigit ∧ 1 ≤ dval c2 ∧ dval c2 ≤ 9 then some (dval c2, rest)
    else none
  | [c1] => if c1.isDigit ∧ 1 ≤ dval c1 ∧ dval c1 ≤ 9 then some (dval c1, []) else none
  | [] => none

/-- Directive `%m`: `1[0-2]|0[1-9]|[1-9]` — two-digit values 1..12. -/
def parse_m : Bytes → Option (Nat × Bytes)
  | c1 :: c2 :: rest =>
    if c1.isDigit ∧ c2.isDigit ∧ 1 ≤ 10 * dval c1 + dval c2 ∧ 10 * dval c1 + dval c2 ≤ 12 then
      some (10 * dval c1 + dval c2, rest)
    else if c1.isDigit ∧ 1 ≤ dval c1 ∧ dval c1 ≤ 9 then some (dval c1, c2 :: rest)
    else none
  | [c1] => if c1.isDigit ∧ 1 ≤ dval c1 ∧ dval c1 ≤ 9 then some (dval c1, []) else none
  | [] => none

/-- Directive `%Y`: `\d\d\d\d` — exactly four digits. -/
def parse_Y : Bytes → Option (Nat × Bytes)
  | c1 :: c2 :: c3 :: c4 :: rest =>
    if c1.isDigit ∧ c2.isDigit ∧ c3.isDigit ∧ c4.isDigit then
      some (1000 * dval c1 + 100 * dval c2 + 10 * dval c3 + dval c4, rest)
    else none
  | _ => none

/-- Directive `%H`: `2[0-3]|[0-1]\d|\d` — two-digit values 0..23, else one digit. -/
def parse_H : Bytes → Option (Nat × Bytes)
  | c1 :: c2 :: rest =>
    if c1.isDigit ∧ c2.isDigit ∧ 10 * dval c1 + dval c2 ≤ 23 then
      some (10 * dval c1 + dval c2, rest)
    else if c1.isDigit then some (dval c1, c2 :: rest)
    else none
  | [c1] => if c1.isDigit then some (dval c1, []) else none
  | [] => none

/-- Directive `%M`: `[0-5]\d|\d` — two-digit values 0..59, else one digit. -/
def parse_M : Bytes → Option (Nat × Bytes)
  | c1 :: c2 :: rest =>
    if c1.isDigit ∧ c2.isDigit ∧ 10 * dval c1 + dval c2 ≤ 59 then
      some (10 * dval c1 + dval c2, rest)
    else if c1.isDigit then some (dval c1, c2 :: rest)
    else none
  | [c1] => if c1.isDigit then some (dval c1, []) else none
  | [] => none

/-- Directive `%S`: `6[0-1]|[0-5]\d|\d` — two-digit values 0..61 (leap
seconds pass the regex and are rejected later by `datetime` construction). -/
def parse_S : Bytes → Option (Nat × Bytes)
  | c1 :: c2 :: rest =>
    if c1.isDigit ∧ c2.isDigit ∧ 10 * dval c1 + dval c2 ≤ 61 then
      some (10 * dval c1 + dval c2, rest)
    else if c1.isDigit then some (dval c1, c2 :: rest)
    else none
  | [c1] => if c1.isDigit then some (dval c1, []) else none
  | [] => none

/-- Greedy digit run (at most `k` more characters), used by `%f`. -/
def takeDigitsUpTo : Nat → Bytes → Bytes × Bytes
  | 0, s => ([], s)
  | _ + 1, [] => ([], [])
  | k + 1, c :: cs =>
    if c.isDigit then
      let (d, r) := takeDigitsUpTo k cs
      (c :: d, r)
    else ([], c :: cs)

/-- Numeric value of a digit string (most significant digit first). -/
def digitsVal (ds : Bytes) : Nat := ds.foldl (fun a c => 10 * a + dval c) 0

/-- Directive `%f`: `[0-9]{1,6}`, greedy; `_strptime` right-pads the match
with zeros to six digits, so the microsecond value is scaled by the number of
digits left unmatched. -/
def parse_f : Bytes → Option (Nat × Bytes)
  | s =>
    let (d, r) := takeDigitsUpTo 6 s
    if d = [] then none else some (digitsVal d * 10 ^ (6 - d.length), r)

/-- A literal character of the format string. -/
def lit (c : Char) : Bytes → Option Bytes
  | x :: rest => if c == x then some rest else none
  | [] => none

/-!
## DateStyle resolution and the date loader
-/

/-- The six resolved date grammars of `DateLoader._format_from_context`
(the spec's `GrammarVariant`; German ignores the field-order suffix). -/
inductive DateFmt
  | iso
  | german
  | sqlDMY
  | sqlMDY
  | pgDMY
  | pgMDY
deriving DecidableEq, Repr

/-- The date separator of each format string — `self._format[2]` in
`DateLoader._get_year_digits` (`"%Y-%m-%d"[2] = '-'`, `"%d.%m.%Y"[2] = '.'`,
and so on). -/
def dateSep : DateFmt → Char
  | .iso => '-'
  | .german => '.'
  | .sqlDMY => '/'
  | .sqlMDY => '/'
  | .pgDMY => '-'
  | .pgMDY => '-'

/-- `DateLoader._get_datestyle`: the connection's `DateStyle` parameter, with
`b"ISO, DMY"` as the default when there is no connection or the value is
absent or empty (Python truthiness of `ds`).  A connection is
`Option (Option Bytes)`: `none` is no connection, `some p` a connection whose
`parameter_status` returns `p`. -/
def get_datestyle (conn : Option (Option Bytes)) : Bytes :=
  match conn with
  | some (some ds) => if ds = [] then bs "ISO, DMY" else ds
  | _ => bs "ISO, DMY"

/-- `DateLoader._format_from_context`: classify the raw `DateStyle` bytes by
first letter, then by the `DMY` suffix; an unrecognized prefix raises
`InterfaceError` (modelled as `none`). -/
def date_format_from_context (ds : Bytes) : Option DateFmt :=
  if startsW (bs "I") ds then some .iso
  else if startsW (bs "G") ds then some .german
  else if startsW (bs "S") ds then some (if endsW (bs "DMY") ds then .sqlDMY else .sqlMDY)
  else if startsW (bs "P") ds then some (if endsW (bs "DMY") ds then .pgDMY else .pgMDY)
  else none

/-- Parse three fields separated by a literal, as the date part of each
format string does. -/
def parse3 (p1 p2 p3 : Bytes → Option (Nat × Bytes)) (sep : Char) (s : Bytes) :
    Option (Nat × Nat × Nat × Bytes) := do
  let (a, r1) ← p1 s
  let r2 ← lit sep r1
  let (b, r3) ← p2 r2
  let r4 ← lit sep r3
  let (c, r5) ← p3 r4
  some (a, b, c, r5)

/-- The date part of a format, yielding `(year, month, day, rest)` in the
field order of the format string. -/
def parseDatePart : DateFmt → Bytes → Option (Nat × Nat × Nat × Bytes)
  | .iso, s => (parse3 parse_Y parse_m parse_d '-' s).map fun (y, m, d, r) => (y, m, d, r)
  | .german, s => (parse3 parse_d parse_m parse_Y '.' s).map fun (d, m, y, r) => (y, m, d, r)
  | .sqlDMY, s => (parse3 parse_d parse_m parse_Y '/' s).map fun (d, m, y, r) => (y, m, d, r)
  | .sqlMDY, s => (parse3 parse_m parse_d parse_Y '/' s).map fun (m, d, y, r) => (y, m, d, r)
  | .pgDMY, s => (parse3 parse_d parse_m parse_Y '-' s).map fun (d, m, y, r) => (y, m, d, r)
  | .pgMDY, s => (parse3 parse_m parse_d parse_Y '-' s).map fun (m, d, y, r) => (y, m, d, r)

/-- `datetime.strptime(s, fmt).date()` for the six date formats: parse the
fields, require the whole input consumed (`unconverted data remains`
otherwise), then validate ranges as `datetime` construction does. -/
def strptime_date (fmt : DateFmt) (s : Bytes) : Option PyDate :=
  match parseDatePart fmt s with
  | some (y, m, d, []) => if dateOk y m d then some ⟨y, m, d⟩ else none
  | _ => none

/-- The original `ValueError` text of a failed `strptime` (CPython:
`time data ... does not match format ...`; quotes elided).  Which of the
`strptime` failure texts is raised is irrelevant to the theorems below; what
matters is that it is a `ValueError`, not a `DataError`. -/
def strptimeMsg (data : Bytes) : Bytes :=
  bs "time data " ++ data ++ bs " does not match format"

/-- Message of `DateLoader._raise_error` for a BC date (apostrophe elided). -/
def bcMsg (data : Bytes) : Bytes :=
  bs "Python does not support BC date: got " ++ data

/-- Message of `DateLoader._raise_error` for a year beyond 9999. -/
def yearMsg (data : Bytes) : Bytes :=
  bs "Python date does not support years after 9999: got " ++ data

/-- `DateLoader._get_year_digits`: split the first space-separated token on
the format's date separator and take the maximum field length. -/
def date_get_year_digits (fmt : DateFmt) (data : Bytes) : Nat :=
  listMax ((((data.splitOn ' ').headD []).splitOn (dateSep fmt)).map List.length)

/-- `DateLoader._raise_error`: classify a parse failure — BC marker first,
then the year-digit heuristic, else propagate the original error. -/
def date_raise_error (fmt : DateFmt) (data : Bytes) : Except PyErr PyDate :=
  if endsW (bs "BC") data then .error (.dataError (bcMsg data))
  else if 4 < date_get_year_digits fmt data then .error (.dataError (yearMsg data))
  else .error (.valueError (strptimeMsg data))

/-- `DateLoader.load`. -/
def DateLoader_load (fmt : DateFmt) (data : Bytes) : Except PyErr PyDate :=
  match strptime_date fmt data with
  | some d => .ok d
  | none => date_raise_error fmt data

/-- `DateDumper.dump`: `str(obj)` of a `datetime.date` is its ISO format
`%04d-%02d-%02d`. -/
def DateDumper_dump (d : PyDate) : Bytes :=
  pad4 d.year ++ '-' :: pad2 d.month ++ '-' :: pad2 d.day

/-- The text a PostgreSQL server emits for a date under each resolved
grammar (zero-padded fields in the format's order and separator); this is
the `date text written in that grammar` of the round-trip claim. -/
def renderDate (fmt : DateFmt) (d : PyDate) : Bytes :=
  match fmt with
  | .iso => pad4 d.year ++ '-' :: (pad2 d.month ++ '-' :: pad2 d.day)
  | .german => pad2 d.day ++ '.' :: (pad2 d.month ++ '.' :: pad4 d.year)
  | .sqlDMY => pad2 d.day ++ '/' :: (pad2 d.month ++ '/' :: pad4 d.year)
  | .sqlMDY => pad2 d.month ++ '/' :: (pad2 d.day ++ '/' :: pad4 d.year)
  | .pgDMY => pad2 d.day ++ '-' :: (pad2 d.month ++ '-' :: pad4 d.year)
  | .pgMDY => pad2 d.month ++ '-' :: (pad2 d.day ++ '-' :: pad4 d.year)

/-- The canonical raw `DateStyle` parameter value resolving to each grammar. -/
def rawOf : DateFmt → Bytes
  | .iso => bs "ISO, DMY"
  | .german => bs "German, DMY"
  | .sqlDMY => bs "SQL, DMY"
  | .sqlMDY => bs "SQL, MDY"
  | .pgDMY => bs "Postgres, DMY"
  | .pgMDY => bs "Postgres, MDY"

/-- A date within the range both of `datetime.date` and of four-digit
rendering. -/
def ValidDate (d : PyDate) : Prop :=
  1 ≤ d.year ∧ d.year ≤ 9999 ∧ 1 ≤ d.month ∧ d.month ≤ 12 ∧
    1 ≤ d.day ∧ d.day ≤ daysInMonth d.year d.month

instance (d : PyDate) : Decidable (ValidDate d) := by unfold ValidDate; infer_instance

/-!
## The time and time-with-zone loaders
-/

/-- Message of `TimeLoader._raise_error`. -/
def timeNotSupMsg (data : Bytes) : Bytes :=
  bs "time not supported by Python: " ++ data

/-- `TimeLoader._raise_error`, as the exception it raises: a `DataError`
whenever the raw text starts with the two bytes `24`, else the original
parse error. -/
def time_error (data : Bytes) : PyErr :=
  if startsW (bs "24") data then .dataError (timeNotSupMsg data)
  else .valueError (strptimeMsg data)

/-- `datetime.strptime(s, "%H:%M:%S[.%f]").time()`: the time fields, full
consumption, then the range check of `datetime` construction (the `%S`
regex admits leap seconds 60 and 61, which construction rejects). -/
def strptime_time (withMicro : Bool) (s : Bytes) : Option PyTime := do
  let (h, r1) ← parse_H s
  let r2 ← lit ':' r1
  let (mi, r3) ← parse_M r2
  let r4 ← lit ':' r3
  let (sec, r5) ← parse_S r4
  if withMicro then
    let r6 ← lit '.' r5
    let (us, r7) ← parse_f r6
    if r7 = [] ∧ sec ≤ 59 then some ⟨h, mi, sec, us⟩ else none
  else
    if r5 = [] ∧ sec ≤ 59 then some ⟨h, mi, sec, 0⟩ else none

/-- `TimeLoader.load`: pick the format with or without `.%f` by scanning for
a literal `.`, parse, and classify failures through `_raise_error`. -/
def TimeLoader_load (data : Bytes) : Except PyErr PyTime :=
  match strptime_time (data.contains '.') data with
  | some t => .ok t
  | none => .error (time_error data)

/-- Exactly two digits (the `\d\d` of the `%z` regex). -/
def parse2dig : Bytes → Option (Nat × Bytes)
  | c1 :: c2 :: rest =>
    if c1.isDigit ∧ c2.isDigit then some (10 * dval c1 + dval c2, rest) else none
  | _ => none

/-- Two digits whose value is at most 59 (the `[0-5]\d` of the `%z` regex). -/
def parse2dig59 : Bytes → Option (Nat × Bytes)
  | c1 :: c2 :: rest =>
    if c1.isDigit ∧ c2.isDigit ∧ 10 * dval c1 + dval c2 ≤ 59 then
      some (10 * dval c1 + dval c2, rest)
    else none
  | _ => none

/-- The optional seconds part of `%z`: `(:?[0-5]\d(\.\d{1,6})?)?`, yielding
seconds and fractional microseconds. -/
def parseZsec (s : Bytes) : Option (Nat × Nat × Bytes) := do
  let r1 := match lit ':' s with
    | some t => t
    | none => s
  let (ss, r2) ← parse2dig59 r1
  match lit '.' r2 with
  | some r3 =>
    match parse_f r3 with
    | some (fus, r4) => some (ss, fus, r4)
    | none => some (ss, 0, r2)
  | none => some (ss, 0, r2)

/-- Directive `%z`: `[+-]\d\d:?[0-5]\d(:?[0-5]\d(\.\d{1,6})?)?|Z`, yielding
the offset in microseconds.  `datetime.strptime` then builds
`timezone(timedelta(...))`, which rejects offsets of 24 hours or more with a
`ValueError`; that rejection is folded into the parse result. -/
def parse_z : Bytes → Option (Int × Bytes)
  | [] => none
  | c :: rest =>
    if c = 'Z' then some (0, rest)
    else if c = '+' ∨ c = '-' then
      match parse2dig rest with
      | none => none
      | some (hh, r1) =>
        let r2 := match lit ':' r1 with
          | some t => t
          | none => r1
        match parse2dig59 r2 with
        | none => none
        | some (mm, r3) =>
          let (ss, fus, r4) := match parseZsec r3 with
            | some (ss, fus, r) => (ss, fus, r)
            | none => (0, 0, r3)
          let total : Int := ((hh * 3600 + mm * 60 + ss) * 1000000 + fus : Nat)
          if total < 86400000000 then
            some (if c = '-' then -total else total, r4)
          else none
    else none

/-- `datetime.strptime(s, "%H:%M:%S[.%f]%z")`, keeping the zone. -/
def strptime_timetz (withMicro : Bool) (s : Bytes) : Option PyTimeTz := do
  let (h, r1) ← parse_H s
  let r2 ← lit ':' r1
  let (mi, r3) ← parse_M r2
  let r4 ← lit ':' r3
  let (sec, r5) ← parse_S r4
  let (us, r6) ← if withMicro then do
      let r ← lit '.' r5
      parse_f r
    else some (0, r5)
  let (off, r7) ← parse_z r6
  if r7 = [] ∧ sec ≤ 59 then some ⟨⟨h, mi, sec, us⟩, off⟩ else none

/-- The `+HH`-to-`+HH00` offset adjustment shared by `TimeTzLoader.load` and
`TimestamptzLoader.load`: append `00` when the third-from-last byte is a
sign (bytes 43 and 45). -/
def tzAdjust (data : Bytes) : Bytes :=
  if data.get? (data.length - 3) = some '+' ∨ data.get? (data.length - 3) = some '-' then
    data ++ bs "00"
  else data

/-- `TimeTzLoader.load`: evaluate `data[-3]` (an `IndexError` on inputs of
fewer than three bytes), append `00` to a `±HH`-only offset, then parse and
classify failures through the inherited `_raise_error` (which receives the
possibly extended data). -/
def TimeTzLoader_load (data : Bytes) : Except PyErr PyTimeTz :=
  if data.length < 3 then .error .indexError
  else
    match strptime_timetz ((tzAdjust data).contains '.') (tzAdjust data) with
    | some t => .ok t
    | none => .error (time_error (tzAdjust data))

/-!
## The timestamp and timestamp-with-zone loaders
-/

/-- Lower-case an ASCII letter (the regex is compiled with `IGNORECASE`). -/
def lowerC (c : Char) : Char :=
  if 'A' ≤ c ∧ c ≤ 'Z' then Char.ofNat (c.toNat + 32) else c

/-- Match a fixed lower-case word case-insensitively. -/
def stripCI : Bytes → Bytes → Option Bytes
  | [], s => some s
  | _ :: _, [] => none
  | p :: ps, c :: cs => if lowerC c = p then stripCI ps cs else none

/-- The locale's abbreviated weekday names (`%a`, C locale). -/
def weekdayAbbrs : List Bytes :=
  [bs "mon", bs "tue", bs "wed", bs "thu", bs "fri", bs "sat", bs "sun"]

/-- The locale's abbreviated month names (`%b`, C locale). -/
def monthAbbrs : List Bytes :=
  [bs "jan", bs "feb", bs "mar", bs "apr", bs "may", bs "jun",
   bs "jul", bs "aug", bs "sep", bs "oct", bs "nov", bs "dec"]

/-- Try each name in order (the regex alternation), returning its position. -/
def parseAbbr (names : List Bytes) (s : Bytes) : Option (Nat × Bytes) :=
  match names with
  | [] => none
  | n :: ns =>
    match stripCI n s with
    | some r => some (0, r)
    | none => (parseAbbr ns s).map fun (i, r) => (i + 1, r)

/-- The `%H:%M:%S[.%f]` tail shared by every timestamp format. -/
def parseTimeTail (withMicro : Bool) (s : Bytes) : Option (PyTime × Bytes) := do
  let (h, r1) ← parse_H s
  let r2 ← lit ':' r1
  let (mi, r3) ← parse_M r2
  let r4 ← lit ':' r3
  let (sec, r5) ← parse_S r4
  if withMicro then
    let r6 ← lit '.' r5
    let (us, r7) ← parse_f r6
    some (⟨h, mi, sec, us⟩, r7)
  else
    some (⟨h, mi, sec, 0⟩, r5)

/-- `datetime.strptime` against `TimestampLoader._format_from_context`'s
format for each grammar: date part, space, time tail for ISO/German/SQL;
`%a %d %b <time> %Y` or `%a %b %d <time> %Y` for the Postgres styles.
Validation is that of `datetime` construction. -/
def strptime_ts (fmt : DateFmt) (withMicro : Bool) (s : Bytes) : Option PyDateTime :=
  match fmt with
  | .pgDMY => do
    let (_, r1) ← parseAbbr weekdayAbbrs s
    let r2 ← lit ' ' r1
    let (d, r3) ← parse_d r2
    let r4 ← lit ' ' r3
    let (mIdx, r5) ← parseAbbr monthAbbrs r4
    let r6 ← lit ' ' r5
    let (t, r7) ← parseTimeTail withMicro r6
    let r8 ← lit ' ' r7
    let (y, r9) ← parse_Y r8
    if r9 = [] ∧ dateOk y (mIdx + 1) d ∧ t.second ≤ 59 then
      some ⟨⟨y, mIdx + 1, d⟩, t, none⟩
    else none
  | .pgMDY => do
    let (_, r1) ← parseAbbr weekdayAbbrs s
    let r2 ← lit ' ' r1
    let (mIdx, r3) ← parseAbbr monthAbbrs r2
    let r4 ← lit ' ' r3
    let (d, r5) ← parse_d r4
    let r6 ← lit ' ' r5
    let (t, r7) ← parseTimeTail withMicro r6
    let r8 ← lit ' ' r7
    let (y, r9) ← parse_Y r8
    if r9 = [] ∧ dateOk y (mIdx + 1) d ∧ t.second ≤ 59 then
      some ⟨⟨y, mIdx + 1, d⟩, t, none⟩
    else none
  | f => do
    let (y, m, d, r1) ← parseDatePart f s
    let r2 ← lit ' ' r1
    let (t, r3) ← parseTimeTail withMicro r2
    if r3 = [] ∧ dateOk y m d ∧ t.second ≤ 59 then
      some ⟨⟨y, m, d⟩, t, none⟩
    else none

/-- Python whitespace bytes (`\s` over `bytes`). -/
def isWsC (c : Char) : Bool :=
  c = ' ' || c = '\t' || c = '\n' || c = '\r' || c.toNat = 11 || c.toNat = 12

/-- Python `bytes.split()` with no argument: split on whitespace runs,
discarding empty pieces. -/
def splitWs (s : Bytes) : List Bytes :=
  (s.splitOnP isWsC).filter (fun p => ¬p.isEmpty)

/-- `TimestampLoader._get_year_digits`: the Postgres styles take the length
of the fifth whitespace-separated token (the trailing `%Y`), or 0 when there
are not five tokens; the other styles fall back to the date heuristic.  (The
source tests `self._get_datestyle().startswith(b"P")`, which for a loader
constructed from that datestyle is exactly the two Postgres formats.) -/
def ts_get_year_digits (fmt : DateFmt) (data : Bytes) : Nat :=
  if fmt = .pgDMY ∨ fmt = .pgMDY then
    let parts := splitWs data
    if 4 < parts.length then ((parts.get? 4).getD []).length else 0
  else date_get_year_digits fmt data

/-- `TimestampLoader._raise_error` (via `DateLoader._raise_error`, with the
overridden year-digit count). -/
def ts_raise_error (fmt : DateFmt) (data : Bytes) : Except PyErr PyDateTime :=
  if endsW (bs "BC") data then .error (.dataError (bcMsg data))
  else if 4 < ts_get_year_digits fmt data then .error (.dataError (yearMsg data))
  else .error (.valueError (strptimeMsg data))

/-- `data.find(b".", 19) >= 0`: a literal dot at index 19 or later (the
fractional-seconds detection of `TimestampLoader.load`). -/
def hasDotFrom19 (data : Bytes) : Bool := (data.drop 19).contains '.'

/-- `TimestampLoader.load`. -/
def TimestampLoader_load (fmt : DateFmt) (data : Bytes) : Except PyErr PyDateTime :=
  match strptime_ts fmt (hasDotFrom19 data) data with
  | some dt => .ok dt
  | none => ts_raise_error fmt data

/-- The construction-time routing of `TimestamptzLoader._format_from_context`:
only an ISO `DateStyle` yields a usable format; every other value (the other
grammars, and unrecognized values alike — the non-ISO branches are commented
out in the source) rebinds `load` to `_load_notimpl`. -/
inductive TstzRoute
  | iso
  | notimpl
deriving DecidableEq, Repr

/-- `TimestamptzLoader._format_from_context`. -/
def tstz_format_from_context (ds : Bytes) : TstzRoute :=
  if startsW (bs "I") ds then .iso else .notimpl

/-- Message of `TimestamptzLoader._load_notimpl` (apostrophe elided). -/
def tstzNotimplMsg (ds data : Bytes) : Bytes :=
  bs "cant parse datetimetz with DateStyle " ++ ds ++ bs ": " ++ data

/-- `datetime.strptime` against `"%Y-%m-%d %H:%M:%S[.%f]%z"`, the only
timestamptz format the loader can be routed to. -/
def strptime_ts_isoTz (withMicro : Bool) (s : Bytes) : Option PyDateTime := do
  let (y, m, d, r1) ← parse3 parse_Y parse_m parse_d '-' s
  let r2 ← lit ' ' r1
  let (t, r3) ← parseTimeTail withMicro r2
  let (off, r4) ← parse_z r3
  if r4 = [] ∧ dateOk y m d ∧ t.second ≤ 59 then
    some ⟨⟨y, m, d⟩, t, some off⟩
  else none

/-- `TimestamptzLoader.load`, with the routing frozen at construction: the
non-ISO route raises `NotImplementedError` for every input; the ISO route
first evaluates `data[-3]` (an `IndexError` on short inputs), appends `00`
to a `±HH`-only offset, then parses and classifies failures through the
inherited `_raise_error` (ISO separator, non-Postgres year heuristic). -/
def TimestamptzLoader_load (conn : Option (Option Bytes)) (data : Bytes) :
    Except PyErr PyDateTime :=
  let ds := get_datestyle conn
  match tstz_format_from_context ds with
  | .notimpl => .error (.notImplementedError (tstzNotimplMsg ds data))
  | .iso =>
    if data.length < 3 then .error .indexError
    else
      match strptime_ts_isoTz (hasDotFrom19 (tzAdjust data)) (tzAdjust data) with
      | some dt => .ok dt
      | none => ts_raise_error .iso (tzAdjust data)

/-!
## The interval loader and the timedelta model

Python's `timedelta` normalizes its arguments to `(days, seconds,
microseconds)` with `0 ≤ seconds < 86400` and `0 ≤ microseconds < 10^6`, and
raises `OverflowError` when the normalized day count exceeds `999999999` in
magnitude.  The float `seconds` argument is modelled exactly as a rational
with a power-of-ten denominator (`Sec10`); every value the theorems below
reach is exactly representable as a Python float.
-/

/-- An exact decimal fraction `num / 10^pow` (the value of the `seconds`
float accumulated by `IntervalLoader.load`). -/
structure Sec10 where
  num : Int
  pow : Nat
deriving DecidableEq, Repr

/-- The rational value of a `Sec10`. -/
def Sec10.toRat (s : Sec10) : ℚ := (s.num : ℚ) / 10 ^ s.pow

/-- Division rounding half to even (float-to-microsecond conversion in
`timedelta`), for a positive divisor. -/
def halfEvenDiv (n d : Int) : Int :=
  let f := n.fdiv d
  let r := n.fmod d
  if 2 * r < d then f
  else if d < 2 * r then f + 1
  else if f % 2 = 0 then f else f + 1

/-- A `Sec10` as a whole number of microseconds, rounding half to even. -/
def Sec10.toUs (s : Sec10) : Int :=
  if s.pow ≤ 6 then s.num * 10 ^ (6 - s.pow)
  else halfEvenDiv s.num (10 ^ (s.pow - 6))

/-- A normalized `datetime.timedelta`. -/
structure Timedelta where
  days : Int
  seconds : Nat
  micros : Nat
deriving DecidableEq, Repr

/-- `timedelta(days=d, seconds=s)`: normalize and check the day range;
the `OverflowError` text is `days=N; must have magnitude <= 999999999`. -/
def timedelta_new (days : Int) (sec : Sec10) : Except Bytes Timedelta :=
  let total := days * 86400000000 + sec.toUs
  let d := total.fdiv 86400000000
  let r := (total.fmod 86400000000).toNat
  if d < -999999999 ∨ 999999999 < d then
    .error (bs "days=" ++ intRepr d ++ bs "; must have magnitude <= 999999999")
  else .ok ⟨d, r / 1000000, r % 1000000⟩

/-- Greedy digit run (`\d+`, unbounded). -/
def takeDigits : Bytes → Bytes × Bytes
  | [] => ([], [])
  | c :: cs =>
    if c.isDigit then
      let (d, r) := takeDigits cs
      (c :: d, r)
    else ([], c :: cs)

/-- Greedy whitespace run (`\s*`). -/
def takeWs : Bytes → Bytes × Bytes
  | [] => ([], [])
  | c :: cs =>
    if isWsC c then
      let (w, r) := takeWs cs
      (c :: w, r)
    else ([], c :: cs)

/-- A nonempty digit run and its value (`\d+`). -/
def parseUInt (s : Bytes) : Option (Nat × Bytes) :=
  let (d, r) := takeDigits s
  if d = [] then none else some (digitsVal d, r)

/-- `[-+]?\d+`, with Python `int()` semantics for the sign. -/
def parseSignedInt (s : Bytes) : Option (Int × Bytes) :=
  match s with
  | c :: cs =>
    if c = '+' then (parseUInt cs).map fun (v, r) => ((v : Int), r)
    else if c = '-' then (parseUInt cs).map fun (v, r) => (-(v : Int), r)
    else (parseUInt (c :: cs)).map fun (v, r) => ((v : Int), r)
  | [] => none

/-- Match a literal word. -/
def stripPre : Bytes → Bytes → Option Bytes
  | [], s => some s
  | _ :: _, [] => none
  | p :: ps, c :: cs => if p == c then stripPre ps cs else none

/-- One optional unit group of the interval regex,
`(?: ([-+]?\d+) \s+ unit s? \s* )?`: signed number, mandatory whitespace,
the unit word with an optional plural `s`, trailing whitespace. -/
def matchUnitGroup (unit : Bytes) (s : Bytes) : Option (Int × Bytes) := do
  let (v, r1) ← parseSignedInt s
  let (w, r2) := takeWs r1
  if w = [] then none
  else
    let r3 ← stripPre unit r2
    let r4 := match r3 with
      | c :: t => if c = 's' then t else c :: t
      | [] => []
    let (_, r5) := takeWs r4
    some (v, r5)

/-- The optional time-of-day group of the interval regex,
`(?: ([-+])? (\d+) : (\d+) : (\d+ (?:\.\d+)?) )?`; the seconds string is
kept as an exact decimal (`Sec10.num` unsigned here, digits of the integer
and fractional parts concatenated). -/
def matchTimeCore (sg : Option Char) (s1 : Bytes) :
    Option ((Option Char × Nat × Nat × Sec10) × Bytes) :=
  match parseUInt s1 with
  | none => none
  | some (h, r1) =>
    match lit ':' r1 with
    | none => none
    | some r2 =>
      match parseUInt r2 with
      | none => none
      | some (mi, r3) =>
        match lit ':' r3 with
        | none => none
        | some r4 =>
          let (dsec, r5) := takeDigits r4
          if dsec = [] then none
          else
            match lit '.' r5 with
            | some r6 =>
              let (df, r7) := takeDigits r6
              if df = [] then some ((sg, h, mi, ⟨(digitsVal dsec : Int), 0⟩), r5)
              else some ((sg, h, mi, ⟨(digitsVal (dsec ++ df) : Int), df.length⟩), r7)
            | none => some ((sg, h, mi, ⟨(digitsVal dsec : Int), 0⟩), r5)

/-- The whole optional time group: the optional leading sign, then the core. -/
def matchTimeGroup (s : Bytes) :
    Option ((Option Char × Nat × Nat × Sec10) × Bytes) :=
  match s with
  | c :: cs =>
    if c = '+' ∨ c = '-' then matchTimeCore (some c) cs else matchTimeCore none (c :: cs)
  | [] => matchTimeCore none []

/-- The captured groups of `IntervalLoader._re_interval`. -/
structure IntervalM where
  years : Option Int
  months : Option Int
  days : Option Int
  time : Option (Option Char × Nat × Nat × Sec10)
deriving DecidableEq, Repr

/-- Attempt an optional group: on failure the position is unchanged. -/
def tryGroup (f : Bytes → Option (α × Bytes)) (s : Bytes) : Option α × Bytes :=
  match f s with
  | some (a, r) => (some a, r)
  | none => (none, s)

/-- `IntervalLoader._re_interval.match(data)`.  Every group of the pattern
is optional, so the regex matches a (possibly empty) prefix of every input:
`re.match` never returns `None`, a zero-length match object is still truthy,
and the `can't parse interval` branch of `load` is unreachable.  The match
is therefore modelled as a total function. -/
def interval_re_match (s : Bytes) : IntervalM :=
  let (y, s1) := tryGroup (matchUnitGroup (bs "year")) s
  let (mo, s2) := tryGroup (matchUnitGroup (bs "mon")) s1
  let (d, s3) := tryGroup (matchUnitGroup (bs "day")) s2
  let (t, _) := tryGroup matchTimeGroup s3
  ⟨y, mo, d, t⟩

/-- The day and second accumulation of `IntervalLoader.load`:
`days = 365*years + 30*months + days`, `seconds = 3600*H + 60*M + S`, the
whole time group negated when its sign is `-`. -/
def intervalDaysSeconds (s : Bytes) : Int × Sec10 :=
  let m := interval_re_match s
  let days := 365 * m.years.getD 0 + 30 * m.months.getD 0 + m.days.getD 0
  let sec : Sec10 := match m.time with
    | none => ⟨0, 0⟩
    | some (sg, h, mi, sv) =>
      let n := (3600 * (h : Int) + 60 * (mi : Int)) * 10 ^ sv.pow + sv.num
      ⟨if sg = some '-' then -n else n, sv.pow⟩
  (days, sec)

/-- The construction-time routing of `IntervalLoader.__init__`: parse with
the fixed Postgres grammar unless a connection reports an `IntervalStyle`
other than `b"postgres"` (including an unset parameter). -/
inductive IntervalRoute
  | pg
  | notimpl
deriving DecidableEq, Repr

/-- `IntervalLoader.__init__`'s routing decision. -/
def interval_route (conn : Option (Option Bytes)) : IntervalRoute :=
  match conn with
  | none => .pg
  | some p => if p = some (bs "postgres") then .pg else .notimpl

/-- The style name reported by `IntervalLoader._load_notimpl`:
`self.connection and parameter_status(...) or b"unknown"` — the live value
when it is truthy (a nonempty byte string), else `b"unknown"`. -/
def interval_notimpl_style (conn : Option (Option Bytes)) : Bytes :=
  match conn with
  | some (some v) => if v = [] then bs "unknown" else v
  | _ => bs "unknown"

/-- Message of `IntervalLoader._load_notimpl` (apostrophe elided). -/
def intervalNotimplMsg (conn : Option (Option Bytes)) (data : Bytes) : Bytes :=
  bs "cant parse interval with IntervalStyle " ++ interval_notimpl_style conn
    ++ bs ": " ++ data

/-- `IntervalLoader.load` (dispatching on the frozen route): match the
grammar, accumulate days and seconds, and build the `timedelta`, turning an
`OverflowError` into a `DataError` whose message is `str(e)` — the overflow
detail alone. -/
def IntervalLoader_load (conn : Option (Option Bytes)) (data : Bytes) :
    Except PyErr Timedelta :=
  match interval_route conn with
  | .notimpl => .error (.notImplementedError (intervalNotimplMsg conn data))
  | .pg =>
    let (days, sec) := intervalDaysSeconds data
    match timedelta_new days sec with
    | .ok td => .ok td
    | .error m => .error (.dataError m)

/-!
## The dumpers
-/

/-- `str(timedelta)` (Python `timedelta.__str__`): `[D day[s], ]H:MM:SS[.ffffff]`. -/
def timedeltaStr (t : Timedelta) : Bytes :=
  let core := natRepr (t.seconds / 3600) ++ ':' :: pad2 (t.seconds % 3600 / 60)
    ++ ':' :: pad2 (t.seconds % 60)
  let withDays :=
    if t.days = 0 then core
    else intRepr t.days ++ bs " day" ++ (if t.days.natAbs = 1 then [] else bs "s")
      ++ bs ", " ++ core
  if t.micros = 0 then withDays else withDays ++ '.' :: pad6 t.micros

/-- The construction-time branch of `TimeDeltaDumper.__init__`: `dump` is
rebound to `_dump_sql` exactly when a connection reports
`IntervalStyle = b"sql_standard"`. -/
inductive TdRoute
  | strdump
  | sql
deriving DecidableEq, Repr

/-- `TimeDeltaDumper.__init__`'s routing decision. -/
def td_dumper_route (conn : Option (Option Bytes)) : TdRoute :=
  match conn with
  | some p => if p = some (bs "sql_standard") then .sql else .strdump
  | none => .strdump

/-- `TimeDeltaDumper._dump_sql`: `b"%+d day %+d second %+d microsecond"`
over the normalized fields — explicit sign on every field. -/
def td_dump_sql (t : Timedelta) : Bytes :=
  fmtPlus t.days ++ bs " day " ++ fmtPlus (t.seconds : Int) ++ bs " second "
    ++ fmtPlus (t.micros : Int) ++ bs " microsecond"

/-- `TimeDeltaDumper.dump`, dispatching on the frozen route (the session
parameter is not re-read per call). -/
def TimeDeltaDumper_dump (r : TdRoute) (t : Timedelta) : Bytes :=
  match r with
  | .strdump => timedeltaStr t
  | .sql => td_dump_sql t

/-!
## Spec-side definitions

These two definitions follow the specification's words rather than the
source, for the claims that speak of the `year field` and the `hour field`
of a raw text; they are compared against the source's heuristics.
-/

/-- Modelled from the spec: `the number of digits in the year field` of a
date text — the field in the year position of the resolved grammar (first
separator-field for ISO's `YYYY-MM-DD`, last for the year-last grammars). -/
def specYearFieldDigits (fmt : DateFmt) (data : Bytes) : Nat :=
  let parts := ((data.splitOn ' ').headD []).splitOn (dateSep fmt)
  match fmt with
  | .iso => (parts.headD []).length
  | _ => (parts.getLastD []).length

/-- Modelled from the spec: `the raw text's hour field` — the digits before
the first `:`, when they are nonempty and all digits. -/
def specHourField (data : Bytes) : Option Nat :=
  let hf := (data.splitOn ':').headD []
  if hf ≠ [] ∧ hf.all Char.isDigit then some (digitsVal hf) else none

/-!
## Statement ingredients

Renderings of well-formed interval texts (the quantification domain of the
interval grammar claim), their expected values, and the message projection
of an exception.
-/

/-- Render an optional sign. -/
def sgB : Option Char → Bytes
  | none => []
  | some c => [c]

/-- The sign factor of Python `int()` / the `hsign` test of the loader. -/
def sgnOf (sg : Option Char) : Int := if sg = some '-' then -1 else 1

/-- Render one unit group as `[sign]N years ` (with its plural unit and one
trailing space), the shape the Postgres interval grammar emits. -/
def renderUnitGroup (unit : Bytes) : Option (Option Char × Bytes) → Bytes
  | none => []
  | some (sg, ds) => sgB sg ++ ds ++ ' ' :: unit ++ 's' :: [' ']

/-- Render the optional time-of-day group as `[sign]H:M:S[.f]`. -/
def renderTimeGroup : Option (Option Char × Bytes × Bytes × Bytes × Option Bytes) → Bytes
  | none => []
  | some (sg, h, mi, sec, fr) =>
    sgB sg ++ h ++ ':' :: mi ++ ':' :: sec ++
      (match fr with
       | none => []
       | some f => '.' :: f)

/-- Render a whole interval text of the grammar
`[N years] [N mons] [N days] [[±]HH:MM:SS[.ffffff]]`. -/
def renderInterval (gy gmo gd : Option (Option Char × Bytes))
    (gt : Option (Option Char × Bytes × Bytes × Bytes × Option Bytes)) : Bytes :=
  renderUnitGroup (bs "year") gy ++ renderUnitGroup (bs "mon") gmo
    ++ renderUnitGroup (bs "day") gd ++ renderTimeGroup gt

/-- A well-formed sign: absent, `+`, or `-`. -/
def WFsign (sg : Option Char) : Prop := sg = none ∨ sg = some '+' ∨ sg = some '-'

/-- A well-formed numeral: nonempty and all digits. -/
def WFdigits (ds : Bytes) : Prop := ds ≠ [] ∧ ds.all Char.isDigit = true

/-- A well-formed optional unit group. -/
def WFgroup : Option (Option Char × Bytes) → Prop
  | none => True
  | some (sg, ds) => WFsign sg ∧ WFdigits ds

/-- A well-formed optional time group. -/
def WFtime : Option (Option Char × Bytes × Bytes × Bytes × Option Bytes) → Prop
  | none => True
  | some (sg, h, mi, sec, fr) =>
    WFsign sg ∧ WFdigits h ∧ WFdigits mi ∧ WFdigits sec ∧
      (match fr with
       | none => True
       | some f => WFdigits f)

instance (sg : Option Char) : Decidable (WFsign sg) := by
  unfold WFsign; infer_instance

instance (ds : Bytes) : Decidable (WFdigits ds) := by
  unfold WFdigits; infer_instance

instance : (g : Option (Option Char × Bytes)) → Decidable (WFgroup g)
  | none => isTrue trivial
  | some (sg, ds) => inferInstanceAs (Decidable (WFsign sg ∧ WFdigits ds))

instance : (t : Option (Option Char × Bytes × Bytes × Bytes × Option Bytes)) →
    Decidable (WFtime t)
  | none => isTrue trivial
  | some (sg, h, mi, sec, none) =>
    inferInstanceAs (Decidable (WFsign sg ∧ WFdigits h ∧ WFdigits mi ∧ WFdigits sec ∧ True))
  | some (sg, h, mi, sec, some f) =>
    inferInstanceAs (Decidable (WFsign sg ∧ WFdigits h ∧ WFdigits mi ∧ WFdigits sec ∧ WFdigits f))

/-- The signed value of an optional unit group (0 when absent). -/
def groupVal : Option (Option Char × Bytes) → Int
  | none => 0
  | some (sg, ds) => sgnOf sg * digitsVal ds

/-- The signed value, in seconds, of the optional time group (0 when
absent): `±(3600 H + 60 M + S)`, the sign applying to the whole group. -/
def timeSecVal : Option (Option Char × Bytes × Bytes × Bytes × Option Bytes) → ℚ
  | none => 0
  | some (sg, h, mi, sec, fr) =>
    (sgnOf sg : ℚ) * (3600 * digitsVal h + 60 * digitsVal mi +
      (digitsVal sec +
        (match fr with
         | none => (0 : ℚ)
         | some f => (digitsVal f : ℚ) / 10 ^ f.length)))

/-- The message carried by an exception (empty for `IndexError`, which has
no argument at its raise site). -/
def PyErr.message : PyErr → Bytes
  | .dataError m => m
  | .valueError m => m
  | .interfaceError m => m
  | .notImplementedError m => m
  | .indexError => []

/-- The first character of the list, if any, fails the test `p` (boundary
condition for greedy runs). -/
def headNot (p : Char → Bool) : Bytes → Prop
  | [] => True
  | c :: _ => p c = false

/-!
## Helper lemmas
-/

theorem dchar_isDigit (n : Nat) (h : n < 10) : (dchar n).isDigit = true := by
  interval_cases n <;> decide

theorem dval_dchar (n : Nat) (h : n < 10) : dval (dchar n) = n := by
  interval_cases n <;> decide

theorem lit_cons (c : Char) (rest : Bytes) : lit c (c :: rest) = some rest := by
  simp [lit]

theorem parse_Y_pad4 (y : Nat) (rest : Bytes) (h : y ≤ 9999) :
    parse_Y (pad4 y ++ rest) = some (y, rest) := by
  have h1 : y / 1000 < 10 := by omega
  have h2 : y / 100 % 10 < 10 := Nat.mod_lt _ (by norm_num)
  have h3 : y / 10 % 10 < 10 := Nat.mod_lt _ (by norm_num)
  have h4 : y % 10 < 10 := Nat.mod_lt _ (by norm_num)
  have key : 1000 * dval (dchar (y / 1000)) + 100 * dval (dchar (y / 100 % 10))
      + 10 * dval (dchar (y / 10 % 10)) + dval (dchar (y % 10)) = y := by
    rw [dval_dchar _ h1, dval_dchar _ h2, dval_dchar _ h3, dval_dchar _ h4]
    omega
  show parse_Y (dchar (y / 1000) :: dchar (y / 100 % 10) :: dchar (y / 10 % 10)
      :: dchar (y % 10) :: rest) = some (y, rest)
  simp only [parse_Y]
  rw [if_pos ⟨dchar_isDigit _ h1, dchar_isDigit _ h2, dchar_isDigit _ h3, dchar_isDigit _ h4⟩,
    key]

theorem parse_d_pad2 (v : Nat) (rest : Bytes) (hl : 1 ≤ v) (hu : v ≤ 31) :
    parse_d (pad2 v ++ rest) = some (v, rest) := by
  have hq : v / 10 < 10 := by omega
  have hr : v % 10 < 10 := Nat.mod_lt _ (by norm_num)
  have key : 10 * dval (dchar (v / 10)) + dval (dchar (v % 10)) = v := by
    rw [dval_dchar _ hq, dval_dchar _ hr]; omega
  show parse_d (dchar (v / 10) :: dchar (v % 10) :: rest) = some (v, rest)
  simp only [parse_d]
  rw [if_pos ⟨dchar_isDigit _ hq, dchar_isDigit _ hr, by rw [key]; exact hl, by rw [key]; exact hu⟩,
    key]

theorem parse_m_pad2 (v : Nat) (rest : Bytes) (hl : 1 ≤ v) (hu : v ≤ 12) :
    parse_m (pad2 v ++ rest) = some (v, rest) := by
  have hq : v / 10 < 10 := by omega
  have hr : v % 10 < 10 := Nat.mod_lt _ (by norm_num)
  have key : 10 * dval (dchar (v / 10)) + dval (dchar (v % 10)) = v := by
    rw [dval_dchar _ hq, dval_dchar _ hr]; omega
  show parse_m (dchar (v / 10) :: dchar (v % 10) :: rest) = some (v, rest)
  simp only [parse_m]
  rw [if_pos ⟨dchar_isDigit _ hq, dchar_isDigit _ hr, by rw [key]; exact hl, by rw [key]; exact hu⟩,
    key]

theorem daysInMonth_le (y m : Nat) : daysInMonth y m ≤ 31 := by
  unfold daysInMonth
  split
  · split <;> omega
  · split <;> omega

theorem strptime_date_render (fmt : DateFmt) (d : PyDate) (h : ValidDate d) :
    strptime_date fmt (renderDate fmt d) = some d := by
  obtain ⟨y, m, dd⟩ := d
  obtain ⟨h1, h2, h3, h4, h5, h6⟩ := h
  have hd31 : dd ≤ 31 := le_trans h6 (daysInMonth_le _ _)
  have hOk : dateOk y m dd = true := by
    simp only [dateOk, Bool.and_eq_true, decide_eq_true_eq]
    exact ⟨⟨⟨⟨⟨h1, h2⟩, h3⟩, h4⟩, h5⟩, h6⟩
  have hYr : ∀ rest, parse_Y (pad4 y ++ rest) = some (y, rest) :=
    fun rest => parse_Y_pad4 y rest h2
  have hmr : ∀ rest, parse_m (pad2 m ++ rest) = some (m, rest) :=
    fun rest => parse_m_pad2 m rest h3 h4
  have hdr : ∀ rest, parse_d (pad2 dd ++ rest) = some (dd, rest) :=
    fun rest => parse_d_pad2 dd rest h5 hd31
  have hY0 : parse_Y (pad4 y) = some (y, []) := by
    have := hYr []; rwa [List.append_nil] at this
  have hd0 : parse_d (pad2 dd) = some (dd, []) := by
    have := hdr []; rwa [List.append_nil] at this
  cases fmt <;>
    simp [strptime_date, parseDatePart, parse3, renderDate, hYr, hmr, hdr, hY0, hd0,
      lit_cons, hOk]

/-!
## Claim C1
-/

/-- C1: for every resolved grammar variant (ISO, German, SQL and Postgres
with both field orders), resolving the raw `DateStyle` value and decoding a
date text written in that grammar yields the corresponding native date; and
for every native date the encoder produces `YYYY-MM-DD`, independent of the
resolved grammar (the dumper takes no grammar at all). -/
theorem C1_dateGrammarRoundTrip (fmt : DateFmt) (d : PyDate) (h : ValidDate d) :
    date_format_from_context (rawOf fmt) = some fmt ∧
    DateLoader_load fmt (renderDate fmt d) = .ok d ∧
    DateDumper_dump d = renderDate .iso d := by
  refine ⟨by cases fmt <;> decide, ?_, ?_⟩
  · unfold DateLoader_load
    rw [strptime_date_render fmt d h]
  · obtain ⟨y, m, dd⟩ := d
    simp [DateDumper_dump, renderDate]

/-- Witness for C1: the German grammar at 2024-02-29 (a leap day). -/
theorem C1_dateGrammarRoundTrip_witness :
    ValidDate ⟨2024, 2, 29⟩ ∧
    (date_format_from_context (rawOf .german) = some .german ∧
     DateLoader_load .german (renderDate .german ⟨2024, 2, 29⟩) = .ok ⟨2024, 2, 29⟩ ∧
     DateDumper_dump ⟨2024, 2, 29⟩ = renderDate .iso ⟨2024, 2, 29⟩) :=
  ⟨by decide, C1_dateGrammarRoundTrip .german ⟨2024, 2, 29⟩ (by decide)⟩

theorem headNot_append (p : Char → Bool) (l r : Bytes) (h0 : l ≠ []) (h1 : headNot p l) :
    headNot p (l ++ r) := by
  cases l with
  | nil => exact absurd rfl h0
  | cons c cs => exact h1

theorem takeDigits_append (ds rest : Bytes) (h1 : ds.all Char.isDigit = true)
    (h2 : headNot Char.isDigit rest) : takeDigits (ds ++ rest) = (ds, rest) := by
  induction ds with
  | nil =>
    cases rest with
    | nil => rfl
    | cons c cs =>
      have h2' : c.isDigit = false := h2
      simp [takeDigits, h2']
  | cons c cs ih =>
    simp only [List.all_cons, Bool.and_eq_true] at h1
    simp [takeDigits, h1.1, ih h1.2]

theorem takeWs_append (ws rest : Bytes) (h1 : ws.all isWsC = true)
    (h2 : headNot isWsC rest) : takeWs (ws ++ rest) = (ws, rest) := by
  induction ws with
  | nil =>
    cases rest with
    | nil => rfl
    | cons c cs =>
      have h2' : isWsC c = false := h2
      simp [takeWs, h2']
  | cons c cs ih =>
    simp only [List.all_cons, Bool.and_eq_true] at h1
    simp [takeWs, h1.1, ih h1.2]

theorem stripPre_append (p rest : Bytes) : stripPre p (p ++ rest) = some rest := by
  induction p with
  | nil => rfl
  | cons c cs ih => simp [stripPre, ih]

theorem stripPre_head_ne (a b : Char) (pa sb : Bytes) (h : a ≠ b) :
    stripPre (a :: pa) (b :: sb) = none := by
  simp [stripPre, h]

theorem parseUInt_append (ds rest : Bytes) (h0 : ds ≠ []) (h1 : ds.all Char.isDigit = true)
    (h2 : headNot Char.isDigit rest) :
    parseUInt (ds ++ rest) = some (digitsVal ds, rest) := by
  simp [parseUInt, takeDigits_append ds rest h1 h2, h0]

theorem digit_not_sign (c : Char) (h : c.isDigit = true) : ¬c = '+' ∧ ¬c = '-' := by
  constructor <;> intro e <;> subst e <;> simp at h

theorem parseSignedInt_render (sg : Option Char) (ds rest : Bytes) (hs : WFsign sg)
    (hd : WFdigits ds) (h2 : headNot Char.isDigit rest) :
    parseSignedInt (sgB sg ++ (ds ++ rest)) = some (sgnOf sg * digitsVal ds, rest) := by
  obtain ⟨hne, hdig⟩ := hd
  rcases hs with h | h | h <;> subst h
  · simp only [sgB, List.nil_append]
    cases ds with
    | nil => exact absurd rfl hne
    | cons c cs =>
      simp only [List.all_cons, Bool.and_eq_true] at hdig
      obtain ⟨hplus, hminus⟩ := digit_not_sign c hdig.1
      have hap : parseUInt (c :: cs ++ rest) = some (digitsVal (c :: cs), rest) :=
        parseUInt_append (c :: cs) rest hne (by simp [List.all_cons, hdig.1, hdig.2]) h2
      simp only [List.cons_append] at hap ⊢
      simp [parseSignedInt, hplus, hminus, hap, sgnOf]
  · simp only [sgB, List.cons_append, List.nil_append]
    simp [parseSignedInt, parseUInt_append ds rest hne hdig h2, sgnOf]
  · simp only [sgB, List.cons_append, List.nil_append]
    simp [parseSignedInt, parseUInt_append ds rest hne hdig h2, sgnOf]

theorem digit_not_ws (c : Char) (h : c.isDigit = true) : isWsC c = false := by
  simp only [Char.isDigit, Bool.and_eq_true, decide_eq_true_eq, ge_iff_le] at h
  have h1 : 48 ≤ c.toNat := h.1
  simp only [isWsC, Bool.or_eq_false_iff, decide_eq_false_iff_not]
  refine ⟨⟨⟨⟨⟨?_, ?_⟩, ?_⟩, ?_⟩, ?_⟩, ?_⟩ <;> first
    | (intro e; subst e; exact absurd h1 (by decide))
    | omega

theorem headNot_ws_unit (u : Bytes) (g : Option (Option Char × Bytes)) (rest : Bytes)
    (hg : WFgroup g) (hr : headNot isWsC rest) :
    headNot isWsC (renderUnitGroup u g ++ rest) := by
  match g with
  | none => simpa [renderUnitGroup] using hr
  | some (sg, ds) =>
    obtain ⟨hs, hne, hdig⟩ := hg
    rcases hs with h | h | h <;> subst h
    · match ds, hne with
      | c :: cs, _ =>
        simp only [List.all_cons, Bool.and_eq_true] at hdig
        show isWsC c = false
        exact digit_not_ws c hdig.1
    · show isWsC '+' = false
      decide
    · show isWsC '-' = false
      decide

theorem headNot_ws_time (gt : Option (Option Char × Bytes × Bytes × Bytes × Option Bytes))
    (ht : WFtime gt) : headNot isWsC (renderTimeGroup gt) := by
  match gt with
  | none => trivial
  | some (sg, h, mi, sec, fr) =>
    obtain ⟨hs, ⟨hne, hdig⟩, _⟩ := ht
    rcases hs with hsg | hsg | hsg <;> subst hsg
    · match h, hne with
      | c :: cs, _ =>
        simp only [List.all_cons, Bool.and_eq_true] at hdig
        show isWsC c = false
        exact digit_not_ws c hdig.1
    · show isWsC '+' = false
      decide
    · show isWsC '-' = false
      decide

theorem matchUnitGroup_render (unit : Bytes) (sg : Option Char) (ds rest : Bytes)
    (hu0 : unit ≠ []) (hu1 : headNot isWsC unit)
    (hs : WFsign sg) (hd : WFdigits ds) (hr : headNot isWsC rest) :
    matchUnitGroup unit (renderUnitGroup unit (some (sg, ds)) ++ rest)
      = some (sgnOf sg * digitsVal ds, rest) := by
  have e : renderUnitGroup unit (some (sg, ds)) ++ rest
      = sgB sg ++ (ds ++ (' ' :: (unit ++ ('s' :: (' ' :: rest))))) := by
    simp [renderUnitGroup, List.append_assoc]
  have hsp : headNot Char.isDigit (' ' :: (unit ++ ('s' :: (' ' :: rest)))) := by
    show (' ' : Char).isDigit = false
    decide
  have hw1 : takeWs (' ' :: (unit ++ ('s' :: (' ' :: rest))))
      = ([' '], unit ++ ('s' :: (' ' :: rest))) := by
    have := takeWs_append [' '] (unit ++ ('s' :: (' ' :: rest))) (by decide)
      (headNot_append _ unit _ hu0 hu1)
    simpa using this
  have hw2 : takeWs (' ' :: rest) = ([' '], rest) := by
    have := takeWs_append [' '] rest (by decide) hr
    simpa using this
  rw [e]
  simp [matchUnitGroup, parseSignedInt_render sg ds _ hs hd hsp, hw1, stripPre_append, hw2]

theorem matchUnitGroup_nil (unit : Bytes) : matchUnitGroup unit [] = none := by
  simp [matchUnitGroup, parseSignedInt, parseUInt, takeDigits]

theorem matchTimeGroup_nil : matchTimeGroup [] = none := by
  simp [matchTimeGroup, matchTimeCore, parseUInt, takeDigits]

theorem matchUnitGroup_render_ne (a b : Char) (pa pb : Bytes) (sg : Option Char)
    (ds rest : Bytes) (hab : a ≠ b) (hbws : isWsC b = false)
    (hs : WFsign sg) (hd : WFdigits ds) :
    matchUnitGroup (a :: pa) (renderUnitGroup (b :: pb) (some (sg, ds)) ++ rest) = none := by
  have e : renderUnitGroup (b :: pb) (some (sg, ds)) ++ rest
      = sgB sg ++ (ds ++ (' ' :: (b :: (pb ++ ('s' :: (' ' :: rest)))))) := by
    simp [renderUnitGroup, List.append_assoc]
  have hsp : headNot Char.isDigit (' ' :: (b :: (pb ++ ('s' :: (' ' :: rest))))) := by
    show (' ' : Char).isDigit = false
    decide
  have hw1 : takeWs (' ' :: (b :: (pb ++ ('s' :: (' ' :: rest)))))
      = ([' '], b :: (pb ++ ('s' :: (' ' :: rest)))) := by
    have := takeWs_append [' '] (b :: (pb ++ ('s' :: (' ' :: rest)))) (by decide)
      (show headNot isWsC (b :: _) from hbws)
    simpa using this
  rw [e]
  simp [matchUnitGroup, parseSignedInt_render sg ds _ hs hd hsp, hw1,
    stripPre_head_ne a b pa _ hab]

theorem matchUnitGroup_render_time (unit : Bytes) (sgt : Option Char)
    (h mi sec : Bytes) (fr : Option Bytes) (hs : WFsign sgt) (hh : WFdigits h) :
    matchUnitGroup unit (renderTimeGroup (some (sgt, h, mi, sec, fr))) = none := by
  have hcol : isWsC ':' = false := by decide
  have main : ∀ F : Bytes,
      matchUnitGroup unit (sgB sgt ++ (h ++ (':' :: (mi ++ (':' :: (sec ++ F)))))) = none := by
    intro F
    have hsp : headNot Char.isDigit (':' :: (mi ++ (':' :: (sec ++ F)))) := by
      show (':' : Char).isDigit = false
      decide
    unfold matchUnitGroup
    rw [parseSignedInt_render sgt h _ hs hh hsp]
    simp [takeWs, hcol]
  have e : renderTimeGroup (some (sgt, h, mi, sec, fr))
      = sgB sgt ++ (h ++ (':' :: (mi ++ (':' :: (sec ++
          (match fr with
           | none => []
           | some f => '.' :: f)))))) := by
    simp [renderTimeGroup, List.append_assoc]
  rw [e]
  exact main _

theorem matchTimeCore_render_none (sg : Option Char) (h mi sec : Bytes)
    (hh : WFdigits h) (hmi : WFdigits mi) (hsec : WFdigits sec) :
    matchTimeCore sg (h ++ (':' :: (mi ++ (':' :: sec))))
      = some ((sg, digitsVal h, digitsVal mi, ⟨(digitsVal sec : Int), 0⟩), []) := by
  have hu1 : parseUInt (h ++ (':' :: (mi ++ (':' :: sec))))
      = some (digitsVal h, ':' :: (mi ++ (':' :: sec))) :=
    parseUInt_append _ _ hh.1 hh.2 (show (':' : Char).isDigit = false by decide)
  have hu2 : parseUInt (mi ++ (':' :: sec)) = some (digitsVal mi, ':' :: sec) :=
    parseUInt_append _ _ hmi.1 hmi.2 (show (':' : Char).isDigit = false by decide)
  have ht : takeDigits sec = (sec, []) := by
    have := takeDigits_append sec [] hsec.2 trivial
    simpa using this
  unfold matchTimeCore
  rw [hu1]
  simp [lit, hu2, ht, hsec.1]

theorem matchTimeCore_render_frac (sg : Option Char) (h mi sec f : Bytes)
    (hh : WFdigits h) (hmi : WFdigits mi) (hsec : WFdigits sec) (hf : WFdigits f) :
    matchTimeCore sg (h ++ (':' :: (mi ++ (':' :: (sec ++ ('.' :: f))))))
      = some ((sg, digitsVal h, digitsVal mi, ⟨(digitsVal (sec ++ f) : Int), f.length⟩), []) := by
  have hu1 : parseUInt (h ++ (':' :: (mi ++ (':' :: (sec ++ ('.' :: f))))))
      = some (digitsVal h, ':' :: (mi ++ (':' :: (sec ++ ('.' :: f))))) :=
    parseUInt_append _ _ hh.1 hh.2 (show (':' : Char).isDigit = false by decide)
  have hu2 : parseUInt (mi ++ (':' :: (sec ++ ('.' :: f))))
      = some (digitsVal mi, ':' :: (sec ++ ('.' :: f))) :=
    parseUInt_append _ _ hmi.1 hmi.2 (show (':' : Char).isDigit = false by decide)
  have ht : takeDigits (sec ++ ('.' :: f)) = (sec, '.' :: f) :=
    takeDigits_append sec _ hsec.2 (show ('.' : Char).isDigit = false by decide)
  have htf : takeDigits f = (f, []) := by
    have := takeDigits_append f [] hf.2 trivial
    simpa using this
  unfold matchTimeCore
  rw [hu1]
  simp [lit, hu2, ht, htf, hsec.1, hf.1]

theorem matchTimeGroup_split (sg : Option Char) (c : Char) (cs : Bytes)
    (hs : WFsign sg) (hc : c.isDigit = true) :
    matchTimeGroup (sgB sg ++ (c :: cs)) = matchTimeCore sg (c :: cs) := by
  rcases hs with h | h | h <;> subst h
  · obtain ⟨h1, h2⟩ := digit_not_sign c hc
    simp [sgB, matchTimeGroup, h1, h2]
  · simp [sgB, matchTimeGroup]
  · simp [sgB, matchTimeGroup]

theorem matchTimeGroup_render (sgt : Option Char) (h mi sec : Bytes) (fr : Option Bytes)
    (hs : WFsign sgt) (hh : WFdigits h) (hmi : WFdigits mi) (hsec : WFdigits sec)
    (hfr : match fr with
           | none => True
           | some f => WFdigits f) :
    matchTimeGroup (renderTimeGroup (some (sgt, h, mi, sec, fr)))
      = some ((sgt, digitsVal h, digitsVal mi,
          match fr with
          | none => (⟨(digitsVal sec : Int), 0⟩ : Sec10)
          | some f => ⟨(digitsVal (sec ++ f) : Int), f.length⟩), []) := by
  obtain ⟨hne, hdig⟩ := hh
  match h, hne with
  | hc :: hcs, _ =>
    simp only [List.all_cons, Bool.and_eq_true] at hdig
    cases fr with
    | none =>
      have e : renderTimeGroup (some (sgt, hc :: hcs, mi, sec, none))
          = sgB sgt ++ (hc :: (hcs ++ (':' :: (mi ++ (':' :: sec))))) := by
        simp [renderTimeGroup, List.append_assoc]
      rw [e, matchTimeGroup_split sgt hc _ hs hdig.1]
      have hcore := matchTimeCore_render_none sgt (hc :: hcs) mi sec
        ⟨List.cons_ne_nil _ _, by simp [List.all_cons, hdig.1, hdig.2]⟩ hmi hsec
      simpa using hcore
    | some f =>
      have e : renderTimeGroup (some (sgt, hc :: hcs, mi, sec, some f))
          = sgB sgt ++ (hc :: (hcs ++ (':' :: (mi ++ (':' :: (sec ++ ('.' :: f))))))) := by
        simp [renderTimeGroup, List.append_assoc]
      rw [e, matchTimeGroup_split sgt hc _ hs hdig.1]
      have hcore := matchTimeCore_render_frac sgt (hc :: hcs) mi sec f
        ⟨List.cons_ne_nil _ _, by simp [List.all_cons, hdig.1, hdig.2]⟩ hmi hsec hfr
      simpa using hcore

theorem matchUnit_fail_day (a : Char) (pa : Bytes) (had : a ≠ 'd')
    (gd : Option (Option Char × Bytes))
    (gt : Option (Option Char × Bytes × Bytes × Bytes × Option Bytes))
    (hgd : WFgroup gd) (hgt : WFtime gt) :
    matchUnitGroup (a :: pa) (renderUnitGroup (bs "day") gd ++ renderTimeGroup gt) = none := by
  cases gd with
  | some p =>
    obtain ⟨sg, ds⟩ := p
    obtain ⟨hs, hd⟩ := hgd
    rw [show (bs "day") = 'd' :: bs "ay" from rfl]
    exact matchUnitGroup_render_ne a 'd' pa _ sg ds _ had (by decide) hs hd
  | none =>
    simp only [renderUnitGroup, List.nil_append]
    cases gt with
    | some q =>
      obtain ⟨sgt, h, mi, sec, fr⟩ := q
      obtain ⟨hs, hh, _⟩ := hgt
      exact matchUnitGroup_render_time _ sgt h mi sec fr hs hh
    | none =>
      simpa [renderTimeGroup] using matchUnitGroup_nil (a :: pa)

theorem matchUnit_fail_mon (a : Char) (pa : Bytes) (ham : a ≠ 'm') (had : a ≠ 'd')
    (gmo gd : Option (Option Char × Bytes))
    (gt : Option (Option Char × Bytes × Bytes × Bytes × Option Bytes))
    (hgmo : WFgroup gmo) (hgd : WFgroup gd) (hgt : WFtime gt) :
    matchUnitGroup (a :: pa) (renderUnitGroup (bs "mon") gmo
      ++ (renderUnitGroup (bs "day") gd ++ renderTimeGroup gt)) = none := by
  cases gmo with
  | some p =>
    obtain ⟨sg, ds⟩ := p
    obtain ⟨hs, hd⟩ := hgmo
    rw [show (bs "mon") = 'm' :: bs "on" from rfl]
    exact matchUnitGroup_render_ne a 'm' pa _ sg ds _ ham (by decide) hs hd
  | none =>
    simp only [renderUnitGroup, List.nil_append]
    exact matchUnit_fail_day a pa had gd gt hgd hgt

theorem tryGroup_unit_step (unit : Bytes) (g : Option (Option Char × Bytes)) (tail : Bytes)
    (hu0 : unit ≠ []) (hu1 : headNot isWsC unit) (hg : WFgroup g)
    (htail : headNot isWsC tail) (hfail : matchUnitGroup unit tail = none) :
    tryGroup (matchUnitGroup unit) (renderUnitGroup unit g ++ tail)
      = (g.map (fun p => sgnOf p.1 * digitsVal p.2), tail) := by
  cases g with
  | none => simp [renderUnitGroup, tryGroup, hfail]
  | some p =>
    obtain ⟨sg, ds⟩ := p
    obtain ⟨hs, hd⟩ := hg
    simp [tryGroup, matchUnitGroup_render unit sg ds tail hu0 hu1 hs hd htail]

theorem tryGroup_time_step (gt : Option (Option Char × Bytes × Bytes × Bytes × Option Bytes))
    (ht : WFtime gt) :
    tryGroup matchTimeGroup (renderTimeGroup gt)
      = (gt.map (fun q => (q.1, digitsVal q.2.1, digitsVal q.2.2.1,
          match q.2.2.2.2 with
          | none => (⟨(digitsVal q.2.2.2.1 : Int), 0⟩ : Sec10)
          | some f => ⟨(digitsVal (q.2.2.2.1 ++ f) : Int), f.length⟩)), []) := by
  cases gt with
  | none => simp [renderTimeGroup, tryGroup, matchTimeGroup_nil]
  | some q =>
    obtain ⟨sgt, h, mi, sec, fr⟩ := q
    obtain ⟨hs, hh, hmi, hsec, hfr⟩ := ht
    cases fr with
    | none => simp [tryGroup, matchTimeGroup_render sgt h mi sec none hs hh hmi hsec trivial]
    | some f => simp [tryGroup, matchTimeGroup_render sgt h mi sec (some f) hs hh hmi hsec hfr]

theorem interval_re_match_render (gy gmo gd : Option (Option Char × Bytes))
    (gt : Option (Option Char × Bytes × Bytes × Bytes × Option Bytes))
    (hy : WFgroup gy) (hmo : WFgroup gmo) (hd : WFgroup gd) (ht : WFtime gt) :
    interval_re_match (renderInterval gy gmo gd gt)
      = ⟨gy.map (fun p => sgnOf p.1 * digitsVal p.2),
         gmo.map (fun p => sgnOf p.1 * digitsVal p.2),
         gd.map (fun p => sgnOf p.1 * digitsVal p.2),
         gt.map (fun q => (q.1, digitsVal q.2.1, digitsVal q.2.2.1,
           match q.2.2.2.2 with
           | none => (⟨(digitsVal q.2.2.2.1 : Int), 0⟩ : Sec10)
           | some f => ⟨(digitsVal (q.2.2.2.1 ++ f) : Int), f.length⟩))⟩ := by
  have hT3 : headNot isWsC (renderTimeGroup gt) := headNot_ws_time gt ht
  have hT2 : headNot isWsC (renderUnitGroup (bs "day") gd ++ renderTimeGroup gt) :=
    headNot_ws_unit _ gd _ hd hT3
  have hT1 : headNot isWsC (renderUnitGroup (bs "mon") gmo
      ++ (renderUnitGroup (bs "day") gd ++ renderTimeGroup gt)) :=
    headNot_ws_unit _ gmo _ hmo hT2
  have f3 : matchUnitGroup (bs "day") (renderTimeGroup gt) = none := by
    cases gt with
    | none => simpa [renderTimeGroup] using matchUnitGroup_nil (bs "day")
    | some q =>
      obtain ⟨sgt, h, mi, sec, fr⟩ := q
      obtain ⟨hs, hh, _⟩ := ht
      exact matchUnitGroup_render_time _ sgt h mi sec fr hs hh
  have f2 : matchUnitGroup (bs "mon")
      (renderUnitGroup (bs "day") gd ++ renderTimeGroup gt) = none :=
    matchUnit_fail_day 'm' (bs "on") (by decide) gd gt hd ht
  have f1 : matchUnitGroup (bs "year") (renderUnitGroup (bs "mon") gmo
      ++ (renderUnitGroup (bs "day") gd ++ renderTimeGroup gt)) = none :=
    matchUnit_fail_mon 'y' (bs "ear") (by decide) (by decide) gmo gd gt hmo hd ht
  have e : renderInterval gy gmo gd gt
      = renderUnitGroup (bs "year") gy ++ (renderUnitGroup (bs "mon") gmo
        ++ (renderUnitGroup (bs "day") gd ++ renderTimeGroup gt)) := by
    simp [renderInterval, List.append_assoc]
  unfold interval_re_match
  rw [e]
  simp only [tryGroup_unit_step (bs "year") gy _ (by decide)
      (show isWsC 'y' = false by decide) hy hT1 f1,
    tryGroup_unit_step (bs "mon") gmo _ (by decide)
      (show isWsC 'm' = false by decide) hmo hT2 f2,
    tryGroup_unit_step (bs "day") gd _ (by decide)
      (show isWsC 'd' = false by decide) hd hT3 f3,
    tryGroup_time_step gt ht]

theorem digitsVal_append (a b : Bytes) :
    digitsVal (a ++ b) = digitsVal a * 10 ^ b.length + digitsVal b := by
  unfold digitsVal
  rw [List.foldl_append]
  suffices h : ∀ (l : Bytes) (init : Nat),
      l.foldl (fun a c => 10 * a + dval c) init
        = init * 10 ^ l.length + l.foldl (fun a c => 10 * a + dval c) 0 by
    rw [h b _]
  intro l
  induction l with
  | nil => intro init; simp
  | cons c cs ih =>
    intro init
    simp only [List.foldl_cons, List.length_cons]
    rw [ih (10 * init + dval c), ih (10 * 0 + dval c)]
    ring

theorem sgn_if_mul (sg : Option Char) (n : Int) :
    (if sg = some '-' then -n else n) = sgnOf sg * n := by
  unfold sgnOf
  split <;> ring

/-!
## Claim C2
-/

/-- C2: for every interval text of the grammar
`[N years] [N mons] [N days] [[±]HH:MM:SS[.ffffff]]` (groups optional, in
this order), the loader accumulates `days = 365*years + 30*months + days`
and `seconds = ±(3600*H + 60*M + S)` with the leading sign applying to the
whole time group; in particular `2 years 3 mons 4 days 01:02:03.5` decodes
to the timedelta of 824 days and 3723.5 seconds. -/
theorem C2_intervalGrammarValue (gy gmo gd : Option (Option Char × Bytes))
    (gt : Option (Option Char × Bytes × Bytes × Bytes × Option Bytes))
    (hy : WFgroup gy) (hmo : WFgroup gmo) (hd : WFgroup gd) (ht : WFtime gt) :
    ((intervalDaysSeconds (renderInterval gy gmo gd gt)).1
        = 365 * groupVal gy + 30 * groupVal gmo + groupVal gd) ∧
    ((intervalDaysSeconds (renderInterval gy gmo gd gt)).2).toRat = timeSecVal gt ∧
    IntervalLoader_load none (bs "2 years 3 mons 4 days 01:02:03.5")
      = .ok ⟨824, 3723, 500000⟩ := by
  refine ⟨?_, ?_, by decide⟩
  · unfold intervalDaysSeconds
    rw [interval_re_match_render gy gmo gd gt hy hmo hd ht]
    rcases gy with _ | ⟨sg1, ds1⟩ <;> rcases gmo with _ | ⟨sg2, ds2⟩ <;>
      rcases gd with _ | ⟨sg3, ds3⟩ <;> simp [groupVal]
  · unfold intervalDaysSeconds
    rw [interval_re_match_render gy gmo gd gt hy hmo hd ht]
    rcases gt with _ | ⟨sgq, hq, miq, secq, frq⟩
    · simp [Sec10.toRat, timeSecVal]
    · obtain ⟨hsq, hhq, hmiq, hsecq, hfrq⟩ := ht
      rcases frq with _ | f
      · rcases hsq with rfl | rfl | rfl <;>
          simp [Sec10.toRat, timeSecVal, sgnOf]
      · have hk : (10 : ℚ) ^ f.length ≠ 0 := by positivity
        rcases hsq with rfl | rfl | rfl <;>
          simp [Sec10.toRat, timeSecVal, sgnOf, digitsVal_append] <;>
          field_simp <;> ring

/-- Witness for C2 at the groups rendering to
`2 years 3 mons 4 days 01:02:03.5`. -/
theorem C2_intervalGrammarValue_witness :
    (WFgroup (some (none, bs "2")) ∧ WFgroup (some (none, bs "3")) ∧
      WFgroup (some (none, bs "4")) ∧
      WFtime (some (none, bs "01", bs "02", bs "03", some (bs "5")))) ∧
    (((intervalDaysSeconds (renderInterval (some (none, bs "2")) (some (none, bs "3"))
          (some (none, bs "4")) (some (none, bs "01", bs "02", bs "03", some (bs "5"))))).1
        = 365 * groupVal (some (none, bs "2")) + 30 * groupVal (some (none, bs "3"))
          + groupVal (some (none, bs "4"))) ∧
      ((intervalDaysSeconds (renderInterval (some (none, bs "2")) (some (none, bs "3"))
          (some (none, bs "4")) (some (none, bs "01", bs "02", bs "03", some (bs "5"))))).2).toRat
        = timeSecVal (some (none, bs "01", bs "02", bs "03", some (bs "5"))) ∧
      IntervalLoader_load none (bs "2 years 3 mons 4 days 01:02:03.5")
        = .ok ⟨824, 3723, 500000⟩) :=
  ⟨⟨by decide, by decide, by decide, by decide⟩,
    C2_intervalGrammarValue _ _ _ _ (by decide) (by decide) (by decide) (by decide)⟩

/-!
## Claim C3
-/

/-- C3 (code bug): an input matching none of the interval grammar's groups
does not raise the malformed-interval error — every group of
`_re_interval` is optional, so the regex matches the empty prefix, the
zero-length match object is truthy, and `load` returns `timedelta(0)`.
(The `raise ValueError` branch is additionally missing its `f` string
prefix, so even if it were reachable its message would not contain the
input.) -/
theorem C3_malformedIntervalReturnsZero :
    interval_re_match (bs "bogus text") = ⟨none, none, none, none⟩ ∧
    IntervalLoader_load none (bs "bogus text") = .ok ⟨0, 0, 0⟩ := by
  decide

/-!
## Claim C4
-/

/-- C4 counterexample: under the ISO grammar, `1-123456-1` fails to parse,
does not end in `BC`, and has a one-digit year field, yet the loader raises
the post-9999 `DataError` instead of propagating the original parse error —
the heuristic measures the longest separator-field, not the year field. -/
theorem C4_yearFieldCounterexample :
    strptime_date .iso (bs "1-123456-1") = none ∧
    endsW (bs "BC") (bs "1-123456-1") = false ∧
    specYearFieldDigits .iso (bs "1-123456-1") = 1 ∧
    DateLoader_load .iso (bs "1-123456-1")
      = .error (.dataError (yearMsg (bs "1-123456-1"))) := by
  decide

/-- C4 as amended: for every date or timestamp input whose parse fails, the
loader raises the BC `DataError` when the text ends in `BC`; otherwise the
post-9999 `DataError` when the year-digit heuristic — the longest field of
the first space token for the non-Postgres styles, the length of the fifth
whitespace token for the Postgres timestamp styles — exceeds four; otherwise
it propagates the original `ValueError` unchanged. -/
theorem C4_amended_recoveryClassifier :
    (∀ (fmt : DateFmt) (data : Bytes), strptime_date fmt data = none →
      DateLoader_load fmt data =
        (if endsW (bs "BC") data then .error (.dataError (bcMsg data))
         else if 4 < date_get_year_digits fmt data then .error (.dataError (yearMsg data))
         else .error (.valueError (strptimeMsg data)))) ∧
    (∀ (fmt : DateFmt) (data : Bytes), strptime_ts fmt (hasDotFrom19 data) data = none →
      TimestampLoader_load fmt data =
        (if endsW (bs "BC") data then .error (.dataError (bcMsg data))
         else if 4 < ts_get_year_digits fmt data then .error (.dataError (yearMsg data))
         else .error (.valueError (strptimeMsg data)))) := by
  constructor
  · intro fmt data h
    simp [DateLoader_load, date_raise_error, h]
  · intro fmt data h
    simp [TimestampLoader_load, ts_raise_error, h]

/-- Witness for the amended C4: a five-digit year under the ISO grammar. -/
theorem C4_amended_recoveryClassifier_witness :
    strptime_date .iso (bs "12345-01-01") = none ∧
    DateLoader_load .iso (bs "12345-01-01") =
      (if endsW (bs "BC") (bs "12345-01-01") then
        .error (.dataError (bcMsg (bs "12345-01-01")))
       else if 4 < date_get_year_digits .iso (bs "12345-01-01") then
        .error (.dataError (yearMsg (bs "12345-01-01")))
       else .error (.valueError (strptimeMsg (bs "12345-01-01")))) :=
  ⟨by decide, C4_amended_recoveryClassifier.1 .iso (bs "12345-01-01") (by decide)⟩

/-!
## Claim C5
-/

/-- C5 counterexample: `241:00:00` fails to parse and its hour field is 241,
not 24, yet the time loader raises the boundary-time `DataError` — the test
is `startswith(b"24")`, not an hour-field comparison. -/
theorem C5_hourFieldCounterexample :
    strptime_time ((bs "241:00:00").contains '.') (bs "241:00:00") = none ∧
    specHourField (bs "241:00:00") = some 241 ∧
    TimeLoader_load (bs "241:00:00")
      = .error (.dataError (timeNotSupMsg (bs "241:00:00"))) := by
  decide

/-- C5 as amended: for every time (or adjusted time-with-zone) input whose
parse fails, the loader raises the `DataError` naming the text unsupported
exactly when the raw text starts with the two bytes `24`; otherwise it
propagates the original parse error. -/
theorem C5_amended_timeRecovery :
    (∀ data : Bytes, strptime_time (data.contains '.') data = none →
      TimeLoader_load data =
        (if startsW (bs "24") data then .error (.dataError (timeNotSupMsg data))
         else .error (.valueError (strptimeMsg data)))) ∧
    (∀ data : Bytes, 3 ≤ data.length →
      strptime_timetz ((tzAdjust data).contains '.') (tzAdjust data) = none →
      TimeTzLoader_load data =
        (if startsW (bs "24") (tzAdjust data) then
          .error (.dataError (timeNotSupMsg (tzAdjust data)))
         else .error (.valueError (strptimeMsg (tzAdjust data))))) := by
  constructor
  · intro data h
    unfold TimeLoader_load time_error
    rw [h]
    split
    · rename_i t heq
      exact Option.noConfusion heq
    · split <;> rfl
  · intro data h3 h
    unfold TimeTzLoader_load time_error
    rw [if_neg (by omega), h]
    split
    · rename_i t heq
      exact Option.noConfusion heq
    · split <;> rfl

/-- Witness for the amended C5: the out-of-range time `25:99:99`. -/
theorem C5_amended_timeRecovery_witness :
    strptime_time ((bs "25:99:99").contains '.') (bs "25:99:99") = none ∧
    TimeLoader_load (bs "25:99:99") =
      (if startsW (bs "24") (bs "25:99:99") then
        .error (.dataError (timeNotSupMsg (bs "25:99:99")))
       else .error (.valueError (strptimeMsg (bs "25:99:99")))) :=
  ⟨by decide, C5_amended_timeRecovery.1 (bs "25:99:99") (by decide)⟩

/-!
## Claim C6
-/

/-- C6: a timestamptz loader constructed while `DateStyle` resolves to any
grammar other than ISO is permanently routed to `_load_notimpl`: every
decode call fails with the not-implemented error, for every input text. -/
theorem C6_tstzNonIsoNotImplemented (conn : Option (Option Bytes)) (fmt : DateFmt)
    (data : Bytes) (hres : date_format_from_context (get_datestyle conn) = some fmt)
    (hne : fmt ≠ .iso) :
    TimestamptzLoader_load conn data
      = .error (.notImplementedError (tstzNotimplMsg (get_datestyle conn) data)) := by
  cases hI : startsW (bs "I") (get_datestyle conn) with
  | false =>
    unfold TimestamptzLoader_load tstz_format_from_context
    simp [hI]
  | true =>
    simp [date_format_from_context, hI] at hres
    exact absurd hres.symm hne

/-- Witness for C6: the German grammar, on a well-formed ISO text. -/
theorem C6_tstzNonIsoNotImplemented_witness :
    (date_format_from_context (get_datestyle (some (some (bs "German, DMY"))))
        = some .german ∧ DateFmt.german ≠ .iso) ∧
    TimestamptzLoader_load (some (some (bs "German, DMY"))) (bs "2021-01-01 00:00:00+00")
      = .error (.notImplementedError (tstzNotimplMsg
          (get_datestyle (some (some (bs "German, DMY")))) (bs "2021-01-01 00:00:00+00"))) :=
  ⟨⟨by decide, by decide⟩,
    C6_tstzNonIsoNotImplemented (some (some (bs "German, DMY"))) .german
      (bs "2021-01-01 00:00:00+00") (by decide) (by decide)⟩

/-!
## Claim C7
-/

/-- C7: with the session's `IntervalStyle` equal to `sql_standard` at
construction, the dumper is routed to `_dump_sql`, and dumping the duration
`timedelta(days=-1, seconds=1)` — normalized fields `(-1, 1, 0)` — produces
exactly `-1 day +1 second +0 microsecond`, an explicit sign on every field.
The route is part of the dumper's state: `dump` takes only the frozen route
and the value, so the session parameter is not re-read per call. -/
theorem C7_sqlStandardIntervalDump :
    td_dumper_route (some (some (bs "sql_standard"))) = .sql ∧
    timedelta_new (-1) ⟨1, 0⟩ = .ok ⟨-1, 1, 0⟩ ∧
    TimeDeltaDumper_dump .sql ⟨-1, 1, 0⟩ = bs "-1 day +1 second +0 microsecond" := by
  decide

/-!
## Claim C8
-/

/-- C8: with no connection, or with the live value `postgres`, the interval
loader keeps the Postgres-grammar parser; under any other live
`IntervalStyle` value every decode call fails with the not-implemented
error, whose message names the live style. -/
theorem C8_intervalStyleRouting :
    interval_route none = .pg ∧
    interval_route (some (some (bs "postgres"))) = .pg ∧
    (∀ (v data : Bytes), v ≠ bs "postgres" →
      IntervalLoader_load (some (some v)) data
        = .error (.notImplementedError (intervalNotimplMsg (some (some v)) data)) ∧
      occursIn v (intervalNotimplMsg (some (some v)) data)) := by
  refine ⟨rfl, by decide, ?_⟩
  intro v data hv
  have hne : ¬(some v = some (bs "postgres")) := by simpa using hv
  constructor
  · simp [IntervalLoader_load, interval_route, hne]
  · unfold intervalNotimplMsg
    by_cases hv0 : v = []
    · subst hv0
      exact ⟨[], bs "cant parse interval with IntervalStyle "
        ++ (interval_notimpl_style (some (some [])) ++ (bs ": " ++ data)), by simp⟩
    · simp only [interval_notimpl_style]
      rw [if_neg hv0]
      exact ⟨bs "cant parse interval with IntervalStyle ", bs ": " ++ data, by simp⟩

/-- Witness for C8: the live style `sql_standard`. -/
theorem C8_intervalStyleRouting_witness :
    (bs "sql_standard" ≠ bs "postgres") ∧
    (IntervalLoader_load (some (some (bs "sql_standard"))) (bs "1 day")
        = .error (.notImplementedError (intervalNotimplMsg
            (some (some (bs "sql_standard"))) (bs "1 day"))) ∧
      occursIn (bs "sql_standard")
        (intervalNotimplMsg (some (some (bs "sql_standard"))) (bs "1 day"))) :=
  ⟨by decide, C8_intervalStyleRouting.2.2 (bs "sql_standard") (bs "1 day") (by decide)⟩

/-!
## Claim C9
-/

theorem startsW_self_append (p r : Bytes) : startsW p (p ++ r) = true := by
  induction p with
  | nil => rfl
  | cons c cs ih => simp [startsW, ih]

theorem occursInB_of_startsW (p s : Bytes) (h : startsW p s = true) :
    occursInB p s = true := by
  cases s with
  | nil =>
    cases p with
    | nil => rfl
    | cons c cs => simp [startsW] at h
  | cons c cs => simp [occursInB, h]

theorem occursIn_imp (p s : Bytes) (h : occursIn p s) : occursInB p s = true := by
  obtain ⟨l, r, rfl⟩ := h
  induction l with
  | nil => simpa using occursInB_of_startsW p _ (startsW_self_append p r)
  | cons c l ih =>
    rw [List.append_assoc] at ih
    simp [occursInB, ih]

/-- C9 counterexample: an interval whose day count overflows `timedelta`
raises a `DataError` whose message is `str(OverflowError)` alone — the
original input text `1000000000 days` does not occur in it. -/
theorem C9_overflowMessageOmitsInput :
    IntervalLoader_load none (bs "1000000000 days")
      = .error (.dataError (bs "days=1000000000; must have magnitude <= 999999999")) ∧
    ¬occursIn (bs "1000000000 days")
      (bs "days=1000000000; must have magnitude <= 999999999") := by
  constructor
  · decide
  · intro hocc
    have hB := occursIn_imp _ _ hocc
    have hF : occursInB (bs "1000000000 days")
        (bs "days=1000000000; must have magnitude <= 999999999") = false := by decide
    rw [hF] at hB
    exact Bool.noConfusion hB

theorem occursIn_pre_tzAdjust (pre data : Bytes) : occursIn data (pre ++ tzAdjust data) := by
  unfold tzAdjust
  split
  · exact ⟨pre, bs "00", by simp⟩
  · exact ⟨pre, [], by simp⟩

/-- C9 as amended: every `DataError` raised by the date, timestamp,
timestamp-with-zone, time and time-with-zone decoders carries the original
input text inside its message (for the zone-aware loaders the message
embeds the `±HH`-adjusted text, which contains the original input as a
prefix); the interval overflow `DataError` instead carries only the
overflow detail (the counterexample above). -/
theorem C9_amended_errorsNameInput :
    (∀ (fmt : DateFmt) (data m : Bytes),
      DateLoader_load fmt data = .error (.dataError m) → occursIn data m) ∧
    (∀ (fmt : DateFmt) (data m : Bytes),
      TimestampLoader_load fmt data = .error (.dataError m) → occursIn data m) ∧
    (∀ (conn : Option (Option Bytes)) (data m : Bytes),
      TimestamptzLoader_load conn data = .error (.dataError m) → occursIn data m) ∧
    (∀ (data m : Bytes),
      TimeLoader_load data = .error (.dataError m) → occursIn data m) ∧
    (∀ (data m : Bytes),
      TimeTzLoader_load data = .error (.dataError m) → occursIn data m) := by
  refine ⟨?_, ?_, ?_, ?_, ?_⟩
  · intro fmt data m he
    unfold DateLoader_load at he
    cases hp : strptime_date fmt data with
    | some d => rw [hp] at he; exact Except.noConfusion he
    | none =>
      rw [hp] at he
      unfold date_raise_error at he
      split_ifs at he with h1 h2
      · injection he with he'
        injection he' with he2
        subst he2
        exact ⟨bs "Python does not support BC date: got ", [], by simp [bcMsg]⟩
      · injection he with he'
        injection he' with he2
        subst he2
        exact ⟨bs "Python date does not support years after 9999: got ", [],
          by simp [yearMsg]⟩
      · injection he with he'
        exact PyErr.noConfusion he'
  · intro fmt data m he
    unfold TimestampLoader_load at he
    cases hp : strptime_ts fmt (hasDotFrom19 data) data with
    | some dt => rw [hp] at he; exact Except.noConfusion he
    | none =>
      rw [hp] at he
      unfold ts_raise_error at he
      split_ifs at he with h1 h2
      · injection he with he'
        injection he' with he2
        subst he2
        exact ⟨bs "Python does not support BC date: got ", [], by simp [bcMsg]⟩
      · injection he with he'
        injection he' with he2
        subst he2
        exact ⟨bs "Python date does not support years after 9999: got ", [],
          by simp [yearMsg]⟩
      · injection he with he'
        exact PyErr.noConfusion he'
  · intro conn data m he
    unfold TimestamptzLoader_load at he
    cases hR : tstz_format_from_context (get_datestyle conn) with
    | notimpl =>
      simp only [hR] at he
      injection he with he'
      exact PyErr.noConfusion he'
    | iso =>
      simp only [hR] at he
      by_cases h3 : data.length < 3
      · rw [if_pos h3] at he
        injection he with he'
        exact PyErr.noConfusion he'
      · rw [if_neg h3] at he
        cases hp : strptime_ts_isoTz (hasDotFrom19 (tzAdjust data)) (tzAdjust data) with
        | some dt => rw [hp] at he; exact Except.noConfusion he
        | none =>
          rw [hp] at he
          unfold ts_raise_error at he
          split_ifs at he with h1 h2
          · injection he with he'
            injection he' with he2
            subst he2
            exact occursIn_pre_tzAdjust (bs "Python does not support BC date: got ") data
          · injection he with he'
            injection he' with he2
            subst he2
            exact occursIn_pre_tzAdjust
              (bs "Python date does not support years after 9999: got ") data
          · injection he with he'
            exact PyErr.noConfusion he'
  · intro data m he
    unfold TimeLoader_load at he
    cases hp : strptime_time (data.contains '.') data with
    | some t => rw [hp] at he; exact Except.noConfusion he
    | none =>
      rw [hp] at he
      unfold time_error at he
      split_ifs at he with h1
      · injection he with he'
        injection he' with he2
        subst he2
        exact ⟨bs "time not supported by Python: ", [], by simp [timeNotSupMsg]⟩
      · injection he with he'
        exact PyErr.noConfusion he'
  · intro data m he
    unfold TimeTzLoader_load at he
    by_cases h3 : data.length < 3
    · rw [if_pos h3] at he
      injection he with he'
      exact PyErr.noConfusion he'
    · rw [if_neg h3] at he
      cases hp : strptime_timetz ((tzAdjust data).contains '.') (tzAdjust data) with
      | some t => rw [hp] at he; exact Except.noConfusion he
      | none =>
        rw [hp] at he
        unfold time_error at he
        split_ifs at he with h1
        · injection he with he'
          injection he' with he2
          subst he2
          exact occursIn_pre_tzAdjust (bs "time not supported by Python: ") data
        · injection he with he'
          exact PyErr.noConfusion he'

/-- Witness for the amended C9: the five-digit year `99999-01-01`. -/
theorem C9_amended_errorsNameInput_witness :
    DateLoader_load .iso (bs "99999-01-01")
      = .error (.dataError (yearMsg (bs "99999-01-01"))) ∧
    occursIn (bs "99999-01-01") (yearMsg (bs "99999-01-01")) :=
  ⟨by decide, C9_amended_errorsNameInput.1 .iso (bs "99999-01-01") _ (by decide)⟩

/-!
## Claim C10
-/

/-- C10 counterexample: a timestamptz loader routed away from ISO never
reaches the `data[-3]` inspection — on the empty input (fewer than 3 bytes)
it raises the not-implemented error, not an indexing error. -/
theorem C10_shortInputCounterexample :
    (bs "").length < 3 ∧
    TimestamptzLoader_load (some (some (bs "German, DMY"))) (bs "")
      = .error (.notImplementedError (tstzNotimplMsg (bs "German, DMY") (bs ""))) := by
  decide

/-- C10 as amended: the time-with-zone loader, and the timestamptz loader
when its resolved style is ISO, inspect `data[-3]` before parsing, so every
input of fewer than 3 bytes raises the unguarded `IndexError`; a non-ISO
timestamptz loader instead fails with the not-implemented error before any
inspection. -/
theorem C10_amended_shortInputIndexError :
    (∀ data : Bytes, data.length < 3 → TimeTzLoader_load data = .error .indexError) ∧
    (∀ (conn : Option (Option Bytes)) (data : Bytes),
      startsW (bs "I") (get_datestyle conn) = true → data.length < 3 →
      TimestamptzLoader_load conn data = .error .indexError) := by
  constructor
  · intro data h
    unfold TimeTzLoader_load
    rw [if_pos h]
  · intro conn data hI h
    unfold TimestamptzLoader_load tstz_format_from_context
    simp [hI, h]

/-- Witness for the amended C10: the two-byte input `+1`. -/
theorem C10_amended_shortInputIndexError_witness :
    ((bs "+1").length < 3 ∧ TimeTzLoader_load (bs "+1") = .error .indexError) ∧
    (startsW (bs "I") (get_datestyle none) = true ∧ (bs "+1").length < 3 ∧
      TimestamptzLoader_load none (bs "+1") = .error .indexError) :=
  ⟨⟨by decide, C10_amended_shortInputIndexError.1 (bs "+1") (by decide)⟩,
    ⟨by decide, by decide,
      C10_amended_shortInputIndexError.2 none (bs "+1") (by decide) (by decide)⟩⟩
